import Mathlib

/-!
Verification of the swisseph binding generator (`scripts/generate-bindings.ts`),
its function-configuration table (`scripts/function-config.ts`) and the memory
helpers (`src/helpers.ts`).

The TypeScript sources are shallowly embedded: every definition below mirrors
one function of the source (same names where Lean allows it, same branch
structure, same iteration order).  JavaScript strings are modelled by Lean
`String` / `List Char`; the anchored regular expressions of the source are
modelled by decidable character-list matchers implementing exactly the
behaviour of the corresponding pattern on its input; `Set` / `Map` objects are
modelled by lists with the same insertion/overwrite discipline.
-/

namespace SweGen

/-! ## Character classes (JS regex classes over the ASCII inputs involved) -/

/-- JS whitespace class `\s` restricted to ASCII. -/
def isWs (c : Char) : Bool :=
  c = ' ' ∨ c = '\t' ∨ c = '\n' ∨ c = '\r' ∨ c = '\x0b' ∨ c = '\x0c'

/-- the class `[A-Z]` -/
def isUpperC (c : Char) : Bool := 'A' ≤ c ∧ c ≤ 'Z'

/-- the class `[a-z]` -/
def isLowerC (c : Char) : Bool := 'a' ≤ c ∧ c ≤ 'z'

/-- the class `[0-9]` -/
def isDigitC (c : Char) : Bool := '0' ≤ c ∧ c ≤ '9'

/-- the class `[A-Z0-9_]` (continuation characters of an upper-snake name). -/
def isSnake (c : Char) : Bool := isUpperC c ∨ isDigitC c ∨ c = '_'

/-- the JS word class `\w` = `[A-Za-z0-9_]`, which also defines `\b`. -/
def isWordChar (c : Char) : Bool := isUpperC c ∨ isLowerC c ∨ isDigitC c ∨ c = '_'

/-- the class `[\d.]` -/
def isNumDot (c : Char) : Bool := isDigitC c ∨ c = '.'

/-! ## Data model (the `interface` declarations of generate-bindings.ts) -/

/-- `interface Constant` of generate-bindings.ts. -/
structure Constant where
  name : String
  value : String
  comment : Option String := none
  dependencies : List String := []
deriving Repr, DecidableEq

/-- `interface FunctionParam` of generate-bindings.ts. -/
structure FunctionParam where
  type : String
  name : String
  isPointer : Bool
deriving Repr, DecidableEq

/-- `interface FunctionDecl` of generate-bindings.ts. -/
structure FunctionDecl where
  returnType : String
  name : String
  params : List FunctionParam
deriving Repr, DecidableEq

/-! ## parseConstantValue

Each accepted shape of `parseConstantValue` is one anchored regular
expression; each is modelled by a decidable matcher on the character list. -/

/-- matcher for `^-?[\d.]+$` -/
def matchNum (cs : List Char) : Bool :=
  match cs with
  | '-' :: rest => rest ≠ [] ∧ rest.all isNumDot
  | _ => cs ≠ [] ∧ cs.all isNumDot

/-- matcher for `^\(-[\d.]+\)$` -/
def matchParenNeg (cs : List Char) : Bool :=
  match cs with
  | '(' :: '-' :: rest =>
      rest.getLast? = some ')' ∧ rest.dropLast ≠ [] ∧ rest.dropLast.all isNumDot
  | _ => false

/-- matcher for `^\d+\s*[\*\+\-\/]\s*\d+$` -/
def matchArith (cs : List Char) : Bool :=
  let d1 := cs.takeWhile isDigitC
  let r1 := cs.drop d1.length
  let r2 := r1.dropWhile isWs
  !d1.isEmpty &&
    match r2 with
    | op :: r3 =>
        (op == '*' || op == '+' || op == '-' || op == '/') &&
          (let r4 := r3.dropWhile isWs
           !r4.isEmpty && r4.all isDigitC)
    | [] => false

/-- matcher for `^\d+\s*<<\s*\d+$` -/
def matchShift (cs : List Char) : Bool :=
  let d1 := cs.takeWhile isDigitC
  let r1 := cs.drop d1.length
  let r2 := r1.dropWhile isWs
  !d1.isEmpty &&
    match r2 with
    | '<' :: '<' :: r3 =>
        (let r4 := r3.dropWhile isWs
         !r4.isEmpty && r4.all isDigitC)
    | _ => false

/-- characters of the class `[\d\s*+\-\/<>|&^()]` -/
def isNumExprChar (c : Char) : Bool :=
  isDigitC c ∨ isWs c ∨ c = '*' ∨ c = '+' ∨ c = '-' ∨ c = '/' ∨ c = '<' ∨ c = '>' ∨
    c = '|' ∨ c = '&' ∨ c = '^' ∨ c = '(' ∨ c = ')'

/-- characters of the class `[A-Z0-9_\s*+\-\/<>|&^()]` -/
def isMixedExprChar (c : Char) : Bool :=
  isSnake c ∨ isWs c ∨ c = '*' ∨ c = '+' ∨ c = '-' ∨ c = '/' ∨ c = '<' ∨ c = '>' ∨
    c = '|' ∨ c = '&' ∨ c = '^' ∨ c = '(' ∨ c = ')'

/-- matcher for `^\([^)]*\d[^)]*\)$`: parenthesized, no inner `)`, at least one
digit inside. -/
def matchParenDigits (cs : List Char) : Bool :=
  match cs with
  | '(' :: rest =>
      rest.getLast? = some ')' ∧
        (let inner := rest.dropLast
         inner.all (· ≠ ')') ∧ inner.any isDigitC)
  | _ => false

/-- matcher for `^[A-Z][A-Z0-9_]*$` (a single constant reference; also the
shape of an accepted `#define` name). -/
def matchConstName (cs : List Char) : Bool :=
  match cs with
  | c :: rest => isUpperC c ∧ rest.all isSnake
  | [] => false

/-- characters of the class `[A-Z0-9_\s|&+\-*]` -/
def isConstExprChar (c : Char) : Bool :=
  isSnake c ∨ isWs c ∨ c = '|' ∨ c = '&' ∨ c = '+' ∨ c = '-' ∨ c = '*'

/-- matcher for `^\([A-Z0-9_\s|&+\-*]+\)$` -/
def matchParenConst (cs : List Char) : Bool :=
  match cs with
  | '(' :: rest =>
      rest.getLast? = some ')' ∧ rest.dropLast ≠ [] ∧ rest.dropLast.all isConstExprChar
  | _ => false

/-- matcher for the repeated group `(\s*[|&+\-*]\s*[A-Z0-9_]+)` of the bare
constant-expression shape; `n` counts the groups already consumed, `fuel`
bounds the scan (one unit per consumed character suffices). -/
def matchOpChain (fuel : Nat) (cs : List Char) (n : Nat) : Bool :=
  match fuel with
  | 0 => false
  | fuel + 1 =>
    match cs with
    | [] => n ≥ 1
    | _ =>
      let r := cs.dropWhile isWs
      match r with
      | op :: r2 =>
          (op == '|' || op == '&' || op == '+' || op == '-' || op == '*') &&
            (let r3 := r2.dropWhile isWs
             let tok := r3.takeWhile isSnake
             !tok.isEmpty && matchOpChain fuel (r3.drop tok.length) (n + 1))
      | [] => false

/-- matcher for `^[A-Z0-9_]+(\s*[|&+\-*]\s*[A-Z0-9_]+)+$` -/
def matchBareConstExpr (cs : List Char) : Bool :=
  let tok := cs.takeWhile isSnake
  !tok.isEmpty && matchOpChain (cs.length + 1) (cs.drop tok.length) 0

/-- `parseConstantValue` of generate-bindings.ts; returns the (possibly
re-parenthesized) value together with its `isNumeric` flag, or `none` when no
accepted shape matches. -/
def parseConstantValue (value : String) : Option (String × Bool) :=
  let cs := value.data
  if matchNum cs then some (value, true)
  else if matchParenNeg cs then some (value, true)
  else if matchArith cs then some ("(" ++ value ++ ")", true)
  else if matchShift cs then some ("(" ++ value ++ ")", true)
  else if matchParenDigits cs then
    (let inner := cs.drop 1 |>.dropLast
     if inner.all isNumExprChar then some (value, true)
     else if inner.all isMixedExprChar then some (value, false)
     else none)
  else if matchConstName cs then some (value, false)
  else if matchParenConst cs then some (value, false)
  else if matchBareConstExpr cs then some ("(" ++ value ++ ")", false)
  else none

/-! ## findDependencies

`findDependencies` runs `value.matchAll(/\b([A-Z][A-Z0-9_]+)\b/g)`.  The
scanner below implements the engine's behaviour: at each position with a word
boundary before it, greedily match `[A-Z][A-Z0-9_]+`; the trailing `\b`
succeeds exactly when the character after the greedy run is not a word
character (backtracking cannot help, since every shorter end lands on a word
character); on success the scan resumes at the match end, otherwise one
character further. `bnd` records whether the current position is a word
boundary (the previous character was not a word character). The fuel counts
down at least as fast as the input shrinks, so `cs.length` units suffice. -/
def findDeps : Nat → List Char → Bool → List String
  | 0, _, _ => []
  | _, [], _ => []
  | fuel + 1, c :: rest, bnd =>
    if bnd ∧ isUpperC c then
      let run := rest.takeWhile isSnake
      let after := rest.drop run.length
      if run ≠ [] ∧ after.head?.all (fun d => ¬ isWordChar d) then
        String.mk (c :: run) :: findDeps fuel after false
      else
        findDeps fuel rest (¬ isWordChar c)
    else
      findDeps fuel rest (¬ isWordChar c)

/-- `findDependencies` of generate-bindings.ts. -/
def findDependencies (value : String) : List String :=
  findDeps value.data.length value.data true

/-! Specification-side characterization of `findDependencies`, used by the
amended claim about dependency extraction: the maximal word-character runs of
the value, kept when they have length at least two, start with an upper-case
letter and consist only of `[A-Z0-9_]`. -/

/-- the maximal runs of word characters of a string, in order; fuel-bounded
like the scanner, `cs.length` units suffice. -/
def wordRuns : Nat → List Char → List (List Char)
  | 0, _ => []
  | _, [] => []
  | fuel + 1, c :: rest =>
    if isWordChar c then
      (c :: rest.takeWhile isWordChar) ::
        wordRuns fuel (rest.drop (rest.takeWhile isWordChar).length)
    else
      wordRuns fuel rest

/-- a word run that the dependency pattern accepts: length at least two, first
character `[A-Z]`, all characters `[A-Z0-9_]`. -/
def isDepRun (run : List Char) : Bool :=
  match run with
  | r :: rs => isUpperC r ∧ rs ≠ [] ∧ rs.all isSnake
  | [] => false

/-- the dependency tokens of a value, described independently of the scanning
order: the accepted maximal word runs. -/
def upperTokens (value : String) : List String :=
  ((wordRuns value.data.length value.data).filter isDepRun).map String.mk

/-- the dependency set in the words of the specification: the symbol-shaped
tokens (`[A-Z][A-Z0-9_]*` word runs) of the value expression, deduplicated and
with the defined constant's own name excluded. -/
def specSymbolDeps (value name : String) : List String :=
  ((((wordRuns value.data.length value.data).filter
      (fun r => matchConstName r)).map String.mk).dedup).filter
    (fun t => t ≠ name)

/-! ## parseConstants -/

/-- JS `String.prototype.trim` on a character list (ASCII whitespace). -/
def trimChars (cs : List Char) : List Char :=
  ((cs.dropWhile isWs).reverse.dropWhile isWs).reverse

/-- JS `String.prototype.trim`. -/
def jsTrim (s : String) : String := String.mk (trimChars s.data)

/-- JS `String.prototype.split` with a one-character separator, on character
lists: `"".split(sep)` is `[""]`, separators at the ends yield empty pieces. -/
def splitOnChar (sep : Char) : List Char → List (List Char)
  | [] => [[]]
  | c :: rest =>
    match splitOnChar sep rest with
    | [] => [[c]]
    | l :: ls => if c = sep then [] :: l :: ls else (c :: l) :: ls

/-- JS `String.prototype.split` with a one-character separator. -/
def jsSplit (s : String) (sep : Char) : List String :=
  (splitOnChar sep s.data).map String.mk

/-- JS `String.prototype.startsWith` with a literal pattern. -/
def jsStartsWith (s pre : String) : Bool :=
  pre.data.isPrefixOf s.data

/-- split a character list at the first occurrence of `pat`, removing it;
`none` when `pat` does not occur. -/
def splitOnSub : List Char → List Char → Option (List Char × List Char)
  | [], _ => none
  | c :: rest, pat =>
    if pat.isPrefixOf (c :: rest) then some ([], (c :: rest).drop pat.length)
    else (splitOnSub rest pat).map (fun p => (c :: p.1, p.2))

/-- the replacement callback of the block-comment pass of `parseConstants`:
keep the first line of the comment as a one-line comment when it is short,
otherwise drop the comment. -/
def blockCommentKeep (matchText : List Char) : List Char :=
  let firstLine := matchText.takeWhile (fun c => c ≠ '\n')
  -- `.replace(/\/\*\s*!/, "")`: the first occurrence of that pattern is the
  -- leading `/*` of the match itself together with the whitespace after it
  let firstLine := (firstLine.drop 2).dropWhile isWs
  let t := trimChars firstLine
  if 0 < t.length ∧ t.length < 80 then
    ('/' :: '*' :: ' ' :: t) ++ [' ', '*', '/']
  else []

/-- the preprocessing pass of `parseConstants`:
`headerContent.replace(/\/\*[\s\S]*?\*\//g, cb)` — every (lazily matched)
block comment is replaced through `blockCommentKeep`; an unterminated `/*`
is left untouched (the pattern cannot match from it, nor from any later
position). `fuel` bounds the number of comments (one unit each suffices). -/
def stripBlock : Nat → List Char → List Char
  | 0, cs => cs
  | fuel + 1, cs =>
    match splitOnSub cs ['/', '*'] with
    | none => cs
    | some (before, afterOpen) =>
      match splitOnSub afterOpen ['*', '/'] with
      | none => cs
      | some (body, afterClose) =>
        before ++ blockCommentKeep ('/' :: '*' :: (body ++ ['*', '/'])) ++
          stripBlock fuel afterClose

/-- the comment-stripping preprocessing of `parseConstants` as a `String`
function. -/
def stripBlockComments (s : String) : String :=
  String.mk (stripBlock (s.data.length + 1) s.data)

/-- matcher for the tail pattern `\s*\/\*(.+?)\*\/` anchored at the line end:
whitespace, `/*`, a nonempty capture, and a final `*/` that closes the line
(the lazy capture backtracks until the closing `*/` sits at the very end).
Returns the captured comment text. -/
def commentTail (cs : List Char) : Option (List Char) :=
  let r := cs.dropWhile isWs
  match r with
  | '/' :: '*' :: body =>
      if body.length ≥ 3 ∧ body.getLast? = some '/' ∧ body.dropLast.getLast? = some '*' then
        some body.dropLast.dropLast
      else none
  | _ => none

/-- the search for the lazy value capture `(.+?)` of the `#define` line
pattern: the value grows one character at a time until the remainder of the
line is empty or is exactly a trailing block comment. -/
def splitValueAux : List Char → List Char → Option (List Char × Option (List Char))
  | _, [] => none
  | vrev, c :: rest =>
    let vrev2 := c :: vrev
    if rest.isEmpty then some (vrev2.reverse, none)
    else
      match commentTail rest with
      | some cm => some (vrev2.reverse, some cm)
      | none => splitValueAux vrev2 rest

/-- matcher for `^#\s*define\s+([A-Z][A-Z0-9_]*)\s+(.+?)(?:\s*\/\*(.+?)\*\/)?$`
(the `#define` line pattern of `parseConstants`).  Greedy `\s+` runs and the
greedy name run admit no backtracking against their successors, so the
matcher is deterministic; when the remainder after the name is all
whitespace the only regex match would carry an all-whitespace value, which
the caller trims to empty and drops, so `none` is returned directly. -/
def matchDefineLine (line : String) : Option (String × String × Option String) :=
  match line.data with
  | '#' :: r0 =>
    let r1 := r0.dropWhile isWs
    if ['d', 'e', 'f', 'i', 'n', 'e'].isPrefixOf r1 then
      let r2 := r1.drop 6
      let ws1 := r2.takeWhile isWs
      if ws1.isEmpty then none
      else
        let r3 := r2.drop ws1.length
        let nameRun := r3.takeWhile isSnake
        match nameRun with
        | [] => none
        | n0 :: _ =>
          if isUpperC n0 then
            let r4 := r3.drop nameRun.length
            let ws2 := r4.takeWhile isWs
            if ws2.isEmpty then none
            else
              match splitValueAux [] (r4.drop ws2.length) with
              | some (v, cm) =>
                  some (String.mk nameRun, String.mk v, cm.map (fun c => String.mk c))
              | none => none
          else none
    else none
  | _ => none

/-- the deny list `skipNames` of `parseConstants`. -/
def skipNames : List String :=
  ["_SWEPHEXP_INCLUDED", "MY_TRUE", "MY_FALSE", "MALLOC", "CALLOC", "FREE",
   "CALL_CONV", "EXP32", "SIMULATE_VICTORVB", "TJD_INVALID", "ext_def"]

/-- the inline pass `value.replace(/\/\*.*?\*\//g, "")` (values contain no
newline, so `.` is unrestricted here); unterminated `/*` is left in place. -/
def removeInlineComments : Nat → List Char → List Char
  | 0, cs => cs
  | fuel + 1, cs =>
    match splitOnSub cs ['/', '*'] with
    | none => cs
    | some (before, afterOpen) =>
      match splitOnSub afterOpen ['*', '/'] with
      | none => cs
      | some (_, afterClose) => before ++ removeInlineComments fuel afterClose

/-- the pass `value.replace(/\/\/.*$/, "")`: cut the value at the first
`//`. -/
def removeLineComment (cs : List Char) : List Char :=
  match splitOnSub cs ['/', '/'] with
  | none => cs
  | some (before, _) => before

/-- the per-line body of the `parseConstants` loop: match the `#define`
pattern, apply the deny list and the literal/function-macro skips, clean the
value, validate it through `parseConstantValue` and extract the
dependencies. -/
def parseConstantLine (line : String) : Option Constant :=
  match matchDefineLine line with
  | none => none
  | some (name, rawValue, comment) =>
    let value := jsTrim rawValue
    let comment := comment.map jsTrim
    if skipNames.contains name then none
    else if jsStartsWith value "\"" ∨ jsStartsWith value "\x27" then none
    else if name.data.contains '(' then none
    else
      let value := jsTrim (String.mk (removeInlineComments (value.length + 1) value.data))
      let value := jsTrim (String.mk (removeLineComment value.data))
      if value.isEmpty then none
      else
        match parseConstantValue value with
        | none => none
        | some (pv, _) =>
          some { name := name, value := pv, comment := comment,
                 dependencies := findDependencies pv }

/-- `parseConstants` of generate-bindings.ts (the per-line loop that pushes
accepted constants is a `filterMap` over the lines of the preprocessed
header). -/
def parseConstants (headerContent : String) : List Constant :=
  (jsSplit (stripBlockComments headerContent) '\n').filterMap parseConstantLine

/-! ## topologicalSort -/

/-- names of a constant list. -/
def namesOf (cs : List Constant) : List String := cs.map (fun c => c.name)

/-- `byName.get`: the `Map` built by `new Map(constants.map(c => [c.name, c]))`
keeps the last binding of each name. -/
def byNameFind (cs : List Constant) (n : String) : Option Constant :=
  cs.foldl (fun acc c => if c.name = n then some c else acc) none

/-- `byName.has`. -/
def byNameContains (cs : List Constant) (n : String) : Bool :=
  (byNameFind cs n).isSome

/-- `Set.prototype.add` on the list model of a string set. -/
def addName (sk : List String) (n : String) : List String :=
  if sk.contains n then sk else n :: sk

/-- the first pass of `topologicalSort`: skip every constant with a
dependency absent from the map. -/
def skipInit (cs : List Constant) : List String :=
  cs.foldl
    (fun sk c =>
      if c.dependencies.any (fun d => !(byNameContains cs d)) then addName sk c.name else sk)
    []

/-- one full iteration of the `while (changed)` propagation loop of
`topologicalSort`: skip every constant (not yet skipped) that has a skipped
dependency; additions made earlier in the same pass are visible later in the
pass, exactly as in the source. -/
def skipPass (cs : List Constant) (sk : List String) : List String :=
  cs.foldl
    (fun sk c =>
      if sk.contains c.name then sk
      else if c.dependencies.any (fun d => sk.contains d) then c.name :: sk
      else sk)
    sk

/-- the `while (changed)` loop: iterate `skipPass` until a pass adds nothing
(every addition is fresh, so `changed` is equivalent to a length increase);
`cs.length + 1` iterations always reach the fixed point. -/
def skipLoop (cs : List Constant) : Nat → List String → List String
  | 0, sk => sk
  | fuel + 1, sk =>
    let skNew := skipPass cs sk
    if skNew.length = sk.length then sk else skipLoop cs fuel skNew

/-- the complete `skipped` set of `topologicalSort`. -/
def skippedSet (cs : List Constant) : List String :=
  skipLoop cs (cs.length + 1) (skipInit cs)

/-- the mutable state of the depth-first traversal of `topologicalSort`. -/
structure TState where
  sorted : List Constant
  visited : List String
  inProgress : List String
deriving Repr

/-- the recursive `visit` of `topologicalSort`.  `fuel` bounds the recursion
depth; every level pushes a fresh map key onto `inProgress`, so a depth of
`cs.length + 1` makes the bound unreachable (a call that would run out of
fuel is a call on a name already `inProgress`, which returns its state
unchanged in either reading). -/
def visit (cs : List Constant) (sk : List String) : Nat → String → TState → TState
  | 0, _, st => st
  | fuel + 1, name, st =>
    if st.visited.contains name then st
    else if st.inProgress.contains name then st
    else if sk.contains name then st
    else
      match byNameFind cs name with
      | none => st
      | some c =>
        let st1 : TState := { st with inProgress := name :: st.inProgress }
        let st2 := c.dependencies.foldl
          (fun s dep => if byNameContains cs dep then visit cs sk fuel dep s else s) st1
        { sorted := st2.sorted ++ [c], visited := name :: st2.visited,
          inProgress := st2.inProgress.erase name }

/-- `topologicalSort` of generate-bindings.ts. -/
def topologicalSort (cs : List Constant) : List Constant :=
  let sk := skippedSet cs
  (cs.foldl
    (fun st c => if sk.contains c.name then st else visit cs sk (cs.length + 1) c.name st)
    ⟨[], [], []⟩).sorted

/-! ## categorizeConstant and the constants document -/

/-- `categorizeConstant` of generate-bindings.ts (the anchored alternation
regexes are exact-match lists). -/
def categorizeConstant (name : String) : String :=
  if jsStartsWith name "SE_SIDM_" then "AYANAMSA"
  else if jsStartsWith name "SEFLG_" then "CALC_FLAGS"
  else if jsStartsWith name "SE_SIDBIT_" ∨ name = "SE_SIDBITS" then "SIDEREAL_BITS"
  else if jsStartsWith name "SE_ECL_" then "ECLIPSE"
  else if jsStartsWith name "SE_CALC_" ∨ jsStartsWith name "SE_BIT_" then "RISE_TRANSIT"
  else if jsStartsWith name "SE_HELFLAG_" ∨ jsStartsWith name "SE_HELIACAL" ∨
      jsStartsWith name "SE_MORNING_" ∨ jsStartsWith name "SE_EVENING_" ∨
      jsStartsWith name "SE_ACRONYCHAL" ∨ jsStartsWith name "SE_COSMICAL" then "HELIACAL"
  else if jsStartsWith name "SE_NODBIT_" then "NODE_APSIDES"
  else if jsStartsWith name "SE_SPLIT_DEG_" then "SPLIT_DEG"
  else if jsStartsWith name "SE_TIDAL_" then "TIDAL"
  else if jsStartsWith name "SE_MODEL_" ∨ jsStartsWith name "NSE_MODEL" then "MODELS"
  else if jsStartsWith name "SEMOD_" then "MODEL_VALUES"
  else if jsStartsWith name "SE_AUNIT_" then "UNITS"
  else if ["SE_SUN", "SE_MOON", "SE_MERCURY", "SE_VENUS", "SE_MARS", "SE_JUPITER",
      "SE_SATURN", "SE_URANUS", "SE_NEPTUNE", "SE_PLUTO", "SE_MEAN_NODE",
      "SE_TRUE_NODE", "SE_MEAN_APOG", "SE_OSCU_APOG", "SE_EARTH", "SE_CHIRON",
      "SE_PHOLUS", "SE_CERES", "SE_PALLAS", "SE_JUNO", "SE_VESTA", "SE_INTP_",
      "SE_NPLANETS", "SE_ECL_NUT"].contains name then "PLANETS"
  else if ["SE_CUPIDO", "SE_HADES", "SE_ZEUS", "SE_KRONOS", "SE_APOLLON",
      "SE_ADMETOS", "SE_VULKANUS", "SE_POSEIDON", "SE_ISIS", "SE_NIBIRU",
      "SE_HARRINGTON", "SE_NEPTUNE_LEVERRIER", "SE_NEPTUNE_ADAMS",
      "SE_PLUTO_LOWELL", "SE_PLUTO_PICKERING", "SE_VULCAN", "SE_WHITE_MOON",
      "SE_PROSERPINA", "SE_WALDEMATH"].contains name then "FICTITIOUS_PLANETS"
  else if ["SE_ASC", "SE_MC", "SE_ARMC", "SE_VERTEX", "SE_EQUASC", "SE_COASC1",
      "SE_COASC2", "SE_POLASC", "SE_NASCMC"].contains name then "HOUSE_POINTS"
  else if ["SE_JUL_CAL", "SE_GREG_CAL"].contains name then "CALENDAR"
  else if ["SE_FICT_OFFSET", "SE_FICT_OFFSET_1", "SE_FICT_MAX", "SE_AST_OFFSET",
      "SE_PLMOON_OFFSET", "SE_COMET_OFFSET", "SE_NALL_NAT_POINTS",
      "SE_NFICT_ELEM", "SE_VARUNA"].contains name then "OFFSETS"
  else if ["SE_TRUE_TO_APP", "SE_APP_TO_TRUE"].contains name then "REFRACTION"
  else if ["SE_ECL2HOR", "SE_EQU2HOR", "SE_HOR2ECL", "SE_HOR2EQU"].contains name then
    "COORDINATE_TRANSFORM"
  else if ["SE_PHOTOPIC_FLAG", "SE_SCOTOPIC_FLAG", "SE_MIXEDOPIC_FLAG"].contains name then
    "OPTIC"
  else if name = "SE_FIXSTAR" ∨ name = "SE_MAX_STNAME" then "FIXSTAR"
  else if name = "SE_DELTAT_AUTOMATIC" then "DELTAT"
  else "OTHER"

/-- the fixed group emission order of `generateConstants`. -/
def groupOrder : List String :=
  ["CALENDAR", "PLANETS", "FICTITIOUS_PLANETS", "OFFSETS", "HOUSE_POINTS",
   "CALC_FLAGS", "SIDEREAL_BITS", "AYANAMSA", "NODE_APSIDES", "ECLIPSE",
   "RISE_TRANSIT", "COORDINATE_TRANSFORM", "REFRACTION", "HELIACAL", "OPTIC",
   "SPLIT_DEG", "TIDAL", "DELTAT", "MODELS", "MODEL_VALUES", "UNITS",
   "FIXSTAR", "OTHER"]

/-- the order in which `generateConstants` emits the constants into the
constants document: the topologically sorted list regrouped by category in
the fixed group order (pushing into `groups[prefix]` preserves the sorted
order inside each category). -/
def constantsInDocOrder (cs : List Constant) : List Constant :=
  let sorted := topologicalSort cs
  groupOrder.foldl
    (fun acc g => acc ++ sorted.filter (fun c => categorizeConstant c.name = g)) []

/-- `generateConstants` of generate-bindings.ts. -/
def generateConstants (cs : List Constant) : String :=
  let sorted := topologicalSort cs
  let headerLines : List String :=
    ["/**", " * Swiss Ephemeris Constants",
     " * Auto-generated from swephexp.h - DO NOT EDIT", " */", ""]
  let groupLines : List String := groupOrder.foldl
    (fun acc g =>
      let grp := sorted.filter (fun c => categorizeConstant c.name = g)
      if grp.isEmpty then acc
      else
        acc ++ [("// " ++ String.mk (g.data.map (fun ch => if ch = '_' then ' ' else ch)))] ++
          grp.map (fun c =>
            let cm := match c.comment with
              | some t => " // " ++ t
              | none => ""
            "export const " ++ c.name ++ " = " ++ c.value ++ ";" ++ cm) ++ [""])
    []
  String.intercalate "\n" (headerLines ++ groupLines)

/-! ## parseParams and parseFunctions -/

/-- the pass `param.replace(/^const\s+/, "")`. -/
def stripConstQual (cs : List Char) : List Char :=
  if ['c', 'o', 'n', 's', 't'].isPrefixOf cs then
    let r := cs.drop 5
    let ws := r.takeWhile isWs
    if ws.isEmpty then cs else r.drop ws.length
  else cs

/-- the pass `cleaned.replace(/\s*\*\s*/g, " ")`: each leftmost match — a
possibly empty whitespace run, one `*`, a possibly empty whitespace run —
becomes a single space.  A match starting with whitespace begins at the
whitespace run immediately preceding a `*`; a whitespace run not followed by
a `*` is kept verbatim. -/
def removeStars : Nat → List Char → List Char
  | 0, _ => []
  | _, [] => []
  | fuel + 1, c :: rest =>
    if c = '*' then ' ' :: removeStars fuel (rest.dropWhile isWs)
    else if isWs c then
      let after := rest.drop (rest.takeWhile isWs).length
      if after.head? = some '*' then ' ' :: removeStars fuel (after.tail.dropWhile isWs)
      else (c :: rest.takeWhile isWs) ++ removeStars fuel after
    else c :: removeStars fuel rest

/-- the maximal non-whitespace runs of a string: the result of
`split(/\s+/).filter(p => p)`. -/
def wsWords : Nat → List Char → List (List Char)
  | 0, _ => []
  | _, [] => []
  | fuel + 1, c :: rest =>
    if isWs c then wsWords fuel rest
    else
      (c :: rest.takeWhile (fun d => !isWs d)) ::
        wsWords fuel (rest.drop (rest.takeWhile (fun d => !isWs d)).length)

/-- JS `Array.prototype.join` with a separator string. -/
def joinSep (sep : String) : List String → String
  | [] => ""
  | w :: ws => ws.foldl (fun acc x => acc ++ sep ++ x) w

/-- the loop body of `parseParams`: one comma-separated piece is handled
against the parameters accumulated so far. -/
def paramStep (params : List FunctionParam) (param : String) : List FunctionParam :=
  if param = "" then params
  else
    let cleaned := stripConstQual param.data
    let isPtr := cleaned.contains '*'
    let cleaned2 := removeStars cleaned.length cleaned
    let parts := (wsWords cleaned2.length cleaned2).map String.mk
    if parts.length ≥ 2 then
      params ++ [{ type := joinSep " " parts.dropLast,
                   name := (parts.getLast?).getD "", isPointer := isPtr }]
    else if parts.length = 1 then
      params ++ [{ type := parts.headD "", name := "arg" ++ toString params.length,
                   isPointer := isPtr }]
    else params

/-- `parseParams` of generate-bindings.ts. -/
def parseParams (paramsStr : String) : List FunctionParam :=
  if paramsStr = "void" ∨ paramsStr = "" then []
  else
    let paramList := (jsSplit paramsStr ',').map jsTrim
    paramList.foldl paramStep []

/-- the lazy search `([\s\S]*?)\)\s*;` of the routine pattern: the parameter
text runs to the first `)` that is followed by optional whitespace and a
`;`; returns the parameter text and the remainder after the `;`. -/
def findParamsEnd : List Char → Option (List Char × List Char)
  | [] => none
  | c :: rest =>
    if c = ')' then
      let ws := rest.takeWhile isWs
      match rest.drop ws.length with
      | ';' :: r2 => some ([], r2)
      | _ => (findParamsEnd rest).map (fun p => (c :: p.1, p.2))
    else (findParamsEnd rest).map (fun p => (c :: p.1, p.2))

/-- attempt of the routine pattern
`ext_def\s*\(\s*([^)]+)\s*\)\s+(\w+)\s*\(([\s\S]*?)\)\s*;` anchored at the
head of `cs`; returns the raw `(returnType, name, params)` captures and the
remainder after the match.  The greedy pieces admit no useful backtracking
against their successors except that `\s*` may strip leading whitespace of
the first capture (the caller trims it anyway), so the capture is modelled
as the full text up to the first `)`. -/
def matchExtDefAt (cs : List Char) : Option ((String × String × String) × List Char) :=
  if ['e', 'x', 't', '_', 'd', 'e', 'f'].isPrefixOf cs then
    let r1 := (cs.drop 7).dropWhile isWs
    match r1 with
    | '(' :: r2 =>
      let inner := r2.takeWhile (fun d => d ≠ ')')
      if inner.isEmpty then none
      else
        match r2.drop inner.length with
        | ')' :: r3 =>
          let ws := r3.takeWhile isWs
          if ws.isEmpty then none
          else
            let r4 := r3.drop ws.length
            let nameRun := r4.takeWhile isWordChar
            if nameRun.isEmpty then none
            else
              match (r4.drop nameRun.length).dropWhile isWs with
              | '(' :: r6 =>
                match findParamsEnd r6 with
                | some (ps, rest) =>
                    some ((String.mk inner, String.mk nameRun, String.mk ps), rest)
                | none => none
              | _ => none
        | _ => none
    | _ => none
  else none

/-- the global scan of `funcRegex.exec` over the header: try the pattern at
each position, resuming after each match; `fuel` of one unit per character
suffices. -/
def scanExtDefs : Nat → List Char → List (String × String × String)
  | 0, _ => []
  | _ + 1, [] => []
  | fuel + 1, c :: rest =>
    match matchExtDefAt (c :: rest) with
    | some (m, after) => m :: scanExtDefs fuel after
    | none => scanExtDefs fuel rest

/-- the deny list `skipFunctions` of `parseFunctions`. -/
def skipFunctions : List String :=
  ["swe_version", "swe_get_library_path", "swe_cs2timestr", "swe_cs2lonlatstr",
   "swe_cs2degstr", "swe_get_ayanamsa_name", "swe_get_current_file_data",
   "swe_house_name", "swe_set_timeout"]

/-- the pass `paramsStr.replace(/\s+/g, " ")`. -/
def collapseWs : List Char → List Char
  | [] => []
  | c :: rest =>
    if isWs c then ' ' :: collapseWs (rest.dropWhile isWs)
    else c :: collapseWs rest
termination_by cs => cs.length
decreasing_by
  all_goals simp only [List.length_cons]
  all_goals first
    | omega
    | exact Nat.lt_succ_of_le (List.dropWhile_sublist _).length_le

/-- `parseFunctions` of generate-bindings.ts. -/
def parseFunctions (headerContent : String) : List FunctionDecl :=
  (scanExtDefs (headerContent.data.length + 1) headerContent.data).filterMap
    (fun m =>
      let returnType := jsTrim m.1
      let name := jsTrim m.2.1
      let paramsStr := jsTrim m.2.2
      if skipFunctions.contains name then none
      else
        let p2 := removeInlineComments (paramsStr.data.length + 1) paramsStr.data
        let p3 := jsTrim (String.mk (collapseWs p2))
        some { returnType := returnType, name := name, params := parseParams p3 })

/-! ## the raw-signature, index and export-list emitters -/

/-- `cTypeToTs` of generate-bindings.ts (`typeMap[cType] || "number"`). -/
def cTypeToTs (cType : String) (isPtr : Bool) : String :=
  if isPtr then "number"
  else if cType = "void" then "void"
  else "number"

/-- a substring test (JS `String.prototype.includes` for nonempty needles). -/
def containsSubstr (s : String) (pat : String) : Bool :=
  (splitOnSub s.data pat.data).isSome

/-- the category a routine is pushed into by `categorizeFunctions` (the
if/else chain over `includes`/unanchored `match`, each an alternation of
substring tests). -/
def classifyFn (name : String) : String :=
  if containsSubstr name "fixstar" then "Fixed Stars"
  else if ["calc", "calc_ut", "calc_pctr", "solcross", "mooncross", "helio_cross",
      "pheno", "nod_aps", "orbital"].any (fun p => containsSubstr name p) then
    "Core Calculations"
  else if ["julday", "revjul", "utc", "jdet", "jdut", "date_conversion"].any
      (fun p => containsSubstr name p) then "Date/Time"
  else if containsSubstr name "house" then "Houses"
  else if ["eclipse", "occult"].any (fun p => containsSubstr name p) then "Eclipses"
  else if ["rise_trans", "azalt"].any (fun p => containsSubstr name p) then "Rise/Transit"
  else if ["heliacal", "vis_limit"].any (fun p => containsSubstr name p) then "Heliacal"
  else if ["cotrans", "refrac"].any (fun p => containsSubstr name p) then
    "Coordinate Transforms"
  else if ["deltat", "time_equ", "lmt_to_lat", "lat_to_lmt"].any
      (fun p => containsSubstr name p) then "Delta T"
  else if ["sid", "ayanamsa"].any (fun p => containsSubstr name p) then "Sidereal"
  else if ["degnorm", "radnorm", "split_deg", "day_of_week", "d2l", "csnorm",
      "difcs", "difdeg", "difrad", "csround", "midp"].any
      (fun p => containsSubstr name p) then "Utility"
  else "Other"

/-- the fixed key order of the `categories` record of
`categorizeFunctions` (`Object.entries` iterates it in insertion order). -/
def functionCategories : List String :=
  ["Core Calculations", "Fixed Stars", "Date/Time", "Houses", "Eclipses",
   "Rise/Transit", "Heliacal", "Coordinate Transforms", "Delta T", "Sidereal",
   "Utility", "Other"]

/-- `generateFunctions` of generate-bindings.ts. -/
def generateFunctions (functions : List FunctionDecl) : String :=
  let headerLines : List String :=
    ["/**", " * Swiss Ephemeris WASM Interface",
     " * Auto-generated from swephexp.h - DO NOT EDIT", " */", "",
     "/**", " * Raw exports from the Swiss Ephemeris WASM module.",
     " * All pointer parameters (double*, int*, char*) are memory addresses (number).",
     " * Use the memory utilities to read/write values at these addresses.", " */",
     "export interface SwissEphWasm \x7b",
     "  /** WebAssembly linear memory */",
     "  memory: WebAssembly.Memory;", "",
     "  /** Allocate memory */",
     "  malloc(size: number): number;", "",
     "  /** Free memory */",
     "  free(ptr: number): void;", ""]
  let catLines : List String := functionCategories.foldl
    (fun acc cat =>
      let fns := functions.filter (fun fn => classifyFn fn.name = cat)
      if fns.isEmpty then acc
      else
        acc ++ [("  // " ++ cat)] ++
          fns.map (fun fn =>
            let ps := String.intercalate ", "
              (fn.params.map (fun p => p.name ++ ": " ++ cTypeToTs p.type p.isPointer))
            "  " ++ fn.name ++ "(" ++ ps ++ "): " ++ cTypeToTs fn.returnType false ++ ";") ++
          [""])
    []
  String.intercalate "\n" (headerLines ++ catLines ++ ["\x7d", ""])

/-- `generateIndex` of generate-bindings.ts. -/
def generateIndex : String :=
  "/**\n * Swiss Ephemeris Generated Bindings\n * Auto-generated - DO NOT EDIT\n */\n\n" ++
    "export * from \"./constants.js\";\nexport * from \"./functions.js\";\n" ++
    "export * from \"./friendly.js\";\n"

/-- `generateExportedFunctions` of generate-bindings.ts. -/
def generateExportedFunctions (functions : List FunctionDecl) : String :=
  let exports := ["_malloc", "_free"] ++ functions.map (fun fn => "_" ++ fn.name)
  "# Add this to Makefile.wasm EXPORTED_FUNCTIONS\nEXPORTED_FUNCTIONS=\x27[" ++
    String.intercalate ", " (exports.map (fun e => "\"" ++ e ++ "\"")) ++
    "]\x27\n\n# Function count: " ++ toString functions.length ++ "\n"

/-! ## function-config.ts -/

/-- the tagged union `OutputType` of function-config.ts (`stringBuf` and
`errorBuf` are the `"string"` and `"error"` tags of the source). -/
inductive OutputType where
  | float64 (nm : Option String)
  | float64Arr (count : Nat) (nm : Option String)
  | int32 (nm : Option String)
  | int32Arr (count : Nat) (nm : Option String)
  | stringBuf (size : Nat)
  | errorBuf (size : Nat)
deriving Repr, DecidableEq

/-- whether the tag is `"error"`. -/
def OutputType.isError : OutputType → Bool
  | .errorBuf _ => true
  | _ => false

/-- the optional public field name `(type as any).name` of an output. -/
def OutputType.nameFld : OutputType → Option String
  | .float64 nm => nm
  | .float64Arr _ nm => nm
  | .int32 nm => nm
  | .int32Arr _ nm => nm
  | .stringBuf _ => none
  | .errorBuf _ => none

/-- the `returnType` strings of a `FunctionConfig`. -/
inductive RetMode where
  | void
  | number
  | checkError
  | checkNegative
deriving Repr, DecidableEq

/-- `interface FunctionConfig` of function-config.ts; `outputs` is the entry
list of the source's record in insertion order (`Object.entries` order). -/
structure FunctionConfig where
  friendlyName : Option String := none
  outputs : List (String × OutputType) := []
  inputStrings : List String := []
  returnType : Option RetMode := none
  skip : Bool := false
  description : Option String := none
  resultType : Option String := none
deriving Repr, DecidableEq

/-- a 256-byte error buffer, the shape every `serr` output uses. -/
def serr256 : String × OutputType := ("serr", .errorBuf 256)

/-- the `Core Calculations` section of the `functionConfig` table. -/
def functionConfigCore : List (String × FunctionConfig) :=
  [("swe_calc",
    { friendlyName := some "calcEt", description := some "Calculate planet position (ET time)",
      outputs := [("xx", .float64Arr 6 none), serr256],
      returnType := some .checkNegative, resultType := some "PlanetPosition" }),
   ("swe_calc_ut",
    { friendlyName := some "calc", description := some "Calculate planet position (UT time)",
      outputs := [("xx", .float64Arr 6 none), serr256],
      returnType := some .checkNegative, resultType := some "PlanetPosition" }),
   ("swe_calc_pctr",
    { friendlyName := some "calcPlanetocentric",
      description := some "Calculate position relative to another planet",
      outputs := [("xxret", .float64Arr 6 none), serr256],
      returnType := some .checkNegative, resultType := some "PlanetPosition" }),
   ("swe_solcross",
    { friendlyName := some "solarCrossingEt",
      description := some "Find when Sun crosses a longitude (ET)",
      outputs := [serr256], returnType := some .number }),
   ("swe_solcross_ut",
    { friendlyName := some "solarCrossing",
      description := some "Find when Sun crosses a longitude (UT)",
      outputs := [serr256], returnType := some .number }),
   ("swe_mooncross",
    { friendlyName := some "moonCrossingEt",
      description := some "Find when Moon crosses a longitude (ET)",
      outputs := [serr256], returnType := some .number }),
   ("swe_mooncross_ut",
    { friendlyName := some "moonCrossing",
      description := some "Find when Moon crosses a longitude (UT)",
      outputs := [serr256], returnType := some .number }),
   ("swe_mooncross_node",
    { friendlyName := some "moonNodeCrossingEt",
      description := some "Find when Moon crosses its node (ET)",
      outputs := [("xlon", .float64 none), ("xlat", .float64 none), serr256],
      returnType := some .number }),
   ("swe_mooncross_node_ut",
    { friendlyName := some "moonNodeCrossing",
      description := some "Find when Moon crosses its node (UT)",
      outputs := [("xlon", .float64 none), ("xlat", .float64 none), serr256],
      returnType := some .number }),
   ("swe_helio_cross",
    { friendlyName := some "helioCrossingEt",
      description := some "Find heliocentric crossing (ET)",
      outputs := [("jd_cross", .float64 none), serr256],
      returnType := some .checkNegative }),
   ("swe_helio_cross_ut",
    { friendlyName := some "helioCrossing",
      description := some "Find heliocentric crossing (UT)",
      outputs := [("jd_cross", .float64 none), serr256],
      returnType := some .checkNegative }),
   ("swe_pheno",
    { friendlyName := some "phenomenaEt",
      description := some "Calculate planetary phenomena (ET)",
      outputs := [("attr", .float64Arr 20 none), serr256],
      returnType := some .checkNegative, resultType := some "PhenomenaResult" }),
   ("swe_pheno_ut",
    { friendlyName := some "phenomena",
      description := some "Calculate planetary phenomena (UT)",
      outputs := [("attr", .float64Arr 20 none), serr256],
      returnType := some .checkNegative, resultType := some "PhenomenaResult" }),
   ("swe_nod_aps",
    { friendlyName := some "nodesApsidesEt",
      description := some "Calculate nodes and apsides (ET)",
      outputs := [("xnasc", .float64Arr 6 none), ("xndsc", .float64Arr 6 none),
                  ("xperi", .float64Arr 6 none), ("xaphe", .float64Arr 6 none), serr256],
      returnType := some .checkNegative, resultType := some "NodesApsidesResult" }),
   ("swe_nod_aps_ut",
    { friendlyName := some "nodesApsides",
      description := some "Calculate nodes and apsides (UT)",
      outputs := [("xnasc", .float64Arr 6 none), ("xndsc", .float64Arr 6 none),
                  ("xperi", .float64Arr 6 none), ("xaphe", .float64Arr 6 none), serr256],
      returnType := some .checkNegative, resultType := some "NodesApsidesResult" }),
   ("swe_get_orbital_elements",
    { friendlyName := some "orbitalElements",
      description := some "Get orbital elements of a planet",
      outputs := [("dret", .float64Arr 50 none), serr256],
      returnType := some .checkNegative, resultType := some "OrbitalElements" }),
   ("swe_orbit_max_min_true_distance",
    { friendlyName := some "orbitDistanceExtremes",
      description := some "Get max/min true distance of orbit",
      outputs := [("dmax", .float64 none), ("dmin", .float64 none),
                  ("dtrue", .float64 none), serr256],
      returnType := some .checkNegative }),
   ("swe_heliacal_pheno_ut",
    { friendlyName := some "heliacalPhenomena",
      description := some "Calculate heliacal phenomena",
      inputStrings := ["ObjectName"],
      outputs := [("darr", .float64Arr 50 none), serr256],
      returnType := some .checkNegative })
  ]

/-- the `Fixed Stars` section of the `functionConfig` table. -/
def functionConfigFixedStars : List (String × FunctionConfig) :=
  [("swe_fixstar",
    { friendlyName := some "fixedStarEt",
      description := some "Calculate fixed star position (ET)",
      inputStrings := ["star"],
      outputs := [("xx", .float64Arr 6 none), serr256],
      returnType := some .checkNegative, resultType := some "PlanetPosition" }),
   ("swe_fixstar_ut",
    { friendlyName := some "fixedStar",
      description := some "Calculate fixed star position (UT)",
      inputStrings := ["star"],
      outputs := [("xx", .float64Arr 6 none), serr256],
      returnType := some .checkNegative, resultType := some "PlanetPosition" }),
   ("swe_fixstar_mag",
    { friendlyName := some "fixedStarMagnitude",
      description := some "Get fixed star magnitude",
      inputStrings := ["star"],
      outputs := [("mag", .float64 none), serr256],
      returnType := some .checkNegative }),
   ("swe_fixstar2",
    { friendlyName := some "fixedStar2Et",
      description := some "Calculate fixed star position v2 (ET)",
      inputStrings := ["star"],
      outputs := [("xx", .float64Arr 6 none), serr256],
      returnType := some .checkNegative, resultType := some "PlanetPosition" }),
   ("swe_fixstar2_ut",
    { friendlyName := some "fixedStar2",
      description := some "Calculate fixed star position v2 (UT)",
      inputStrings := ["star"],
      outputs := [("xx", .float64Arr 6 none), serr256],
      returnType := some .checkNegative, resultType := some "PlanetPosition" }),
   ("swe_fixstar2_mag",
    { friendlyName := some "fixedStar2Magnitude",
      description := some "Get fixed star magnitude v2",
      inputStrings := ["star"],
      outputs := [("mag", .float64 none), serr256],
      returnType := some .checkNegative })
  ]

/-- the `Date/Time` section of the `functionConfig` table. -/
def functionConfigDateTime : List (String × FunctionConfig) :=
  [("swe_julday",
    { friendlyName := some "julday", description := some "Convert date to Julian Day",
      returnType := some .number }),
   ("swe_revjul",
    { friendlyName := some "revjul",
      description := some "Convert Julian Day to date components",
      outputs := [("jyear", .int32 (some "year")), ("jmon", .int32 (some "month")),
                  ("jday", .int32 (some "day")), ("jut", .float64 (some "hour"))],
      returnType := some .void, resultType := some "DateComponents" }),
   ("swe_date_conversion",
    { friendlyName := some "dateConversion",
      description := some "Convert date with calendar check",
      outputs := [("tjd", .float64 none)],
      returnType := some .checkNegative }),
   ("swe_utc_to_jd",
    { friendlyName := some "utcToJd", description := some "Convert UTC to Julian Day",
      outputs := [("dret", .float64Arr 2 none), serr256],
      returnType := some .checkNegative, resultType := some "JulianDayResult" }),
   ("swe_jdet_to_utc",
    { friendlyName := some "jdEtToUtc",
      description := some "Convert Julian Day ET to UTC",
      outputs := [("iyear", .int32 (some "year")), ("imonth", .int32 (some "month")),
                  ("iday", .int32 (some "day")), ("ihour", .int32 (some "hour")),
                  ("imin", .int32 (some "minute")), ("dsec", .float64 (some "second"))],
      returnType := some .void, resultType := some "UtcComponents" }),
   ("swe_jdut1_to_utc",
    { friendlyName := some "jdUt1ToUtc",
      description := some "Convert Julian Day UT1 to UTC",
      outputs := [("iyear", .int32 (some "year")), ("imonth", .int32 (some "month")),
                  ("iday", .int32 (some "day")), ("ihour", .int32 (some "hour")),
                  ("imin", .int32 (some "minute")), ("dsec", .float64 (some "second"))],
      returnType := some .void, resultType := some "UtcComponents" }),
   ("swe_utc_time_zone",
    { friendlyName := some "utcTimeZone",
      description := some "Convert between timezones",
      outputs := [("iyear_out", .int32 (some "year")), ("imonth_out", .int32 (some "month")),
                  ("iday_out", .int32 (some "day")), ("ihour_out", .int32 (some "hour")),
                  ("imin_out", .int32 (some "minute")), ("dsec_out", .float64 (some "second"))],
      returnType := some .void, resultType := some "UtcComponents" })
  ]

/-- the `Houses` section of the `functionConfig` table. -/
def functionConfigHouses : List (String × FunctionConfig) :=
  [("swe_houses",
    { friendlyName := some "housesSimple",
      description := some "Calculate house cusps (simple)",
      outputs := [("cusps", .float64Arr 13 none), ("ascmc", .float64Arr 10 none)],
      returnType := some .number, resultType := some "HouseResult" }),
   ("swe_houses_ex",
    { friendlyName := some "houses",
      description := some "Calculate house cusps (extended)",
      outputs := [("cusps", .float64Arr 13 none), ("ascmc", .float64Arr 10 none)],
      returnType := some .number, resultType := some "HouseResult" }),
   ("swe_houses_ex2",
    { friendlyName := some "housesWithSpeed",
      description := some "Calculate house cusps with speeds",
      outputs := [("cusps", .float64Arr 13 none), ("ascmc", .float64Arr 10 none),
                  ("cusp_speed", .float64Arr 13 none), ("ascmc_speed", .float64Arr 10 none),
                  serr256],
      returnType := some .number, resultType := some "HouseResultWithSpeed" }),
   ("swe_houses_armc",
    { friendlyName := some "housesArmc",
      description := some "Calculate houses from ARMC",
      outputs := [("cusps", .float64Arr 13 none), ("ascmc", .float64Arr 10 none)],
      returnType := some .number, resultType := some "HouseResult" }),
   ("swe_houses_armc_ex2",
    { friendlyName := some "housesArmcWithSpeed",
      description := some "Calculate houses from ARMC with speeds",
      outputs := [("cusps", .float64Arr 13 none), ("ascmc", .float64Arr 10 none),
                  ("cusp_speed", .float64Arr 13 none), ("ascmc_speed", .float64Arr 10 none),
                  serr256],
      returnType := some .number, resultType := some "HouseResultWithSpeed" }),
   ("swe_house_pos",
    { friendlyName := some "housePosition",
      description := some "Calculate house position of a planet",
      outputs := [serr256], returnType := some .number }),
   ("swe_gauquelin_sector",
    { friendlyName := some "gauquelinSector",
      description := some "Calculate Gauquelin sector",
      inputStrings := ["starname"],
      outputs := [("dgsect", .float64 none), serr256],
      returnType := some .checkNegative })
  ]

/-- the `Eclipses` section of the `functionConfig` table. -/
def functionConfigEclipses : List (String × FunctionConfig) :=
  [("swe_sol_eclipse_where",
    { friendlyName := some "solarEclipseWhere",
      description := some "Find where solar eclipse is central",
      outputs := [("geopos", .float64Arr 10 none), ("attr", .float64Arr 20 none), serr256],
      returnType := some .checkNegative, resultType := some "EclipseWhereResult" }),
   ("swe_sol_eclipse_how",
    { friendlyName := some "solarEclipseHow",
      description := some "Calculate solar eclipse attributes",
      outputs := [("attr", .float64Arr 20 none), serr256],
      returnType := some .checkNegative, resultType := some "EclipseAttributes" }),
   ("swe_sol_eclipse_when_loc",
    { friendlyName := some "solarEclipseWhenLocal",
      description := some "Find next solar eclipse at location",
      outputs := [("tret", .float64Arr 10 none), ("attr", .float64Arr 20 none), serr256],
      returnType := some .checkNegative, resultType := some "EclipseTimeResult" }),
   ("swe_sol_eclipse_when_glob",
    { friendlyName := some "solarEclipseWhenGlobal",
      description := some "Find next solar eclipse globally",
      outputs := [("tret", .float64Arr 10 none), serr256],
      returnType := some .checkNegative, resultType := some "EclipseTimeResult" }),
   ("swe_lun_occult_where",
    { friendlyName := some "lunarOccultationWhere",
      description := some "Find where lunar occultation is central",
      inputStrings := ["starname"],
      outputs := [("geopos", .float64Arr 10 none), ("attr", .float64Arr 20 none), serr256],
      returnType := some .checkNegative, resultType := some "EclipseWhereResult" }),
   ("swe_lun_occult_when_loc",
    { friendlyName := some "lunarOccultationWhenLocal",
      description := some "Find next lunar occultation at location",
      inputStrings := ["starname"],
      outputs := [("tret", .float64Arr 10 none), ("attr", .float64Arr 20 none), serr256],
      returnType := some .checkNegative, resultType := some "EclipseTimeResult" }),
   ("swe_lun_occult_when_glob",
    { friendlyName := some "lunarOccultationWhenGlobal",
      description := some "Find next lunar occultation globally",
      inputStrings := ["starname"],
      outputs := [("tret", .float64Arr 10 none), serr256],
      returnType := some .checkNegative, resultType := some "EclipseTimeResult" }),
   ("swe_lun_eclipse_how",
    { friendlyName := some "lunarEclipseHow",
      description := some "Calculate lunar eclipse attributes",
      outputs := [("attr", .float64Arr 20 none), serr256],
      returnType := some .checkNegative, resultType := some "EclipseAttributes" }),
   ("swe_lun_eclipse_when",
    { friendlyName := some "lunarEclipseWhen",
      description := some "Find next lunar eclipse",
      outputs := [("tret", .float64Arr 10 none), serr256],
      returnType := some .checkNegative, resultType := some "EclipseTimeResult" }),
   ("swe_lun_eclipse_when_loc",
    { friendlyName := some "lunarEclipseWhenLocal",
      description := some "Find next lunar eclipse at location",
      outputs := [("tret", .float64Arr 10 none), ("attr", .float64Arr 20 none), serr256],
      returnType := some .checkNegative, resultType := some "EclipseTimeResult" })
  ]

/-- the `Rise/Transit` section of the `functionConfig` table. -/
def functionConfigRiseTransit : List (String × FunctionConfig) :=
  [("swe_rise_trans",
    { friendlyName := some "riseTransit",
      description := some "Calculate rise, transit, set times",
      inputStrings := ["starname"],
      outputs := [("tret", .float64 none), serr256],
      returnType := some .checkNegative }),
   ("swe_rise_trans_true_hor",
    { friendlyName := some "riseTransitTrueHorizon",
      description := some "Calculate rise/transit with true horizon",
      inputStrings := ["starname"],
      outputs := [("tret", .float64 none), serr256],
      returnType := some .checkNegative }),
   ("swe_azalt",
    { friendlyName := some "azimuthAltitude",
      description := some "Convert ecliptic to horizontal coordinates",
      outputs := [("xaz", .float64Arr 3 none)],
      returnType := some .void, resultType := some "AzimuthAltitude" }),
   ("swe_azalt_rev",
    { friendlyName := some "azimuthAltitudeReverse",
      description := some "Convert horizontal to ecliptic coordinates",
      outputs := [("xout", .float64Arr 3 none)],
      returnType := some .void })
  ]

/-- the `Heliacal` section of the `functionConfig` table. -/
def functionConfigHeliacal : List (String × FunctionConfig) :=
  [("swe_heliacal_ut",
    { friendlyName := some "heliacalRising",
      description := some "Calculate heliacal rising/setting",
      inputStrings := ["ObjectName"],
      outputs := [("dret", .float64Arr 50 none), serr256],
      returnType := some .checkNegative }),
   ("swe_vis_limit_mag",
    { friendlyName := some "visibilityLimitMagnitude",
      description := some "Calculate limiting magnitude for visibility",
      inputStrings := ["ObjectName"],
      outputs := [("dret", .float64Arr 8 none), serr256],
      returnType := some .checkNegative }),
   ("swe_heliacal_angle",
    { friendlyName := some "heliacalAngle",
      description := some "Calculate heliacal angle",
      outputs := [("dret", .float64Arr 3 none), serr256],
      returnType := some .checkNegative }),
   ("swe_topo_arcus_visionis",
    { friendlyName := some "topoArcusVisionis",
      description := some "Calculate topocentric arcus visionis",
      outputs := [("dret", .float64Arr 3 none), serr256],
      returnType := some .checkNegative })
  ]

/-- the `Coordinate Transforms` section of the `functionConfig` table. -/
def functionConfigCoordTrans : List (String × FunctionConfig) :=
  [("swe_refrac",
    { friendlyName := some "refraction",
      description := some "Calculate atmospheric refraction",
      returnType := some .number }),
   ("swe_refrac_extended",
    { friendlyName := some "refractionExtended",
      description := some "Calculate extended atmospheric refraction",
      outputs := [("dret", .float64Arr 4 none)],
      returnType := some .number }),
   ("swe_cotrans",
    { friendlyName := some "coordinateTransform",
      description := some "Transform ecliptic/equatorial coordinates",
      outputs := [("xpn", .float64Arr 3 none)],
      returnType := some .void }),
   ("swe_cotrans_sp",
    { friendlyName := some "coordinateTransformWithSpeed",
      description := some "Transform coordinates with speed",
      outputs := [("xpn", .float64Arr 6 none)],
      returnType := some .void })
  ]

/-- the `Delta T` section of the `functionConfig` table. -/
def functionConfigDeltaT : List (String × FunctionConfig) :=
  [("swe_deltat",
    { friendlyName := some "deltaT", description := some "Get Delta T (TT - UT)",
      returnType := some .number }),
   ("swe_deltat_ex",
    { friendlyName := some "deltaTExtended", description := some "Get Delta T with flags",
      outputs := [serr256], returnType := some .number }),
   ("swe_time_equ",
    { friendlyName := some "equationOfTime", description := some "Get equation of time",
      outputs := [("te", .float64 none), serr256],
      returnType := some .checkNegative }),
   ("swe_lmt_to_lat",
    { friendlyName := some "localMeanTimeToApparent",
      description := some "Convert LMT to LAT",
      outputs := [("tjd_lat", .float64 none), serr256],
      returnType := some .checkNegative }),
   ("swe_lat_to_lmt",
    { friendlyName := some "apparentToLocalMeanTime",
      description := some "Convert LAT to LMT",
      outputs := [("tjd_lmt", .float64 none), serr256],
      returnType := some .checkNegative })
  ]

/-- the `Sidereal` section of the `functionConfig` table. -/
def functionConfigSidereal : List (String × FunctionConfig) :=
  [("swe_set_sid_mode",
    { friendlyName := some "setSiderealMode",
      description := some "Set sidereal calculation mode",
      returnType := some .void }),
   ("swe_get_ayanamsa",
    { friendlyName := some "getAyanamsaEt", description := some "Get ayanamsa (ET)",
      returnType := some .number }),
   ("swe_get_ayanamsa_ut",
    { friendlyName := some "getAyanamsa", description := some "Get ayanamsa (UT)",
      returnType := some .number }),
   ("swe_get_ayanamsa_ex",
    { friendlyName := some "getAyanamsaExEt",
      description := some "Get ayanamsa extended (ET)",
      outputs := [("daya", .float64 none), serr256],
      returnType := some .checkNegative }),
   ("swe_get_ayanamsa_ex_ut",
    { friendlyName := some "getAyanamsaEx",
      description := some "Get ayanamsa extended (UT)",
      outputs := [("daya", .float64 none), serr256],
      returnType := some .checkNegative }),
   ("swe_sidtime",
    { friendlyName := some "siderealTime", description := some "Get sidereal time",
      returnType := some .number }),
   ("swe_sidtime0",
    { friendlyName := some "siderealTime0",
      description := some "Get sidereal time with parameters",
      returnType := some .number })
  ]

/-- the `Utility` section of the `functionConfig` table. -/
def functionConfigUtility : List (String × FunctionConfig) :=
  [("swe_degnorm",
    { friendlyName := some "normalizeDegrees",
      description := some "Normalize degrees to 0-360",
      returnType := some .number }),
   ("swe_radnorm",
    { friendlyName := some "normalizeRadians",
      description := some "Normalize radians to 0-2π",
      returnType := some .number }),
   ("swe_rad_midp",
    { friendlyName := some "radianMidpoint",
      description := some "Calculate midpoint in radians",
      returnType := some .number }),
   ("swe_deg_midp",
    { friendlyName := some "degreeMidpoint",
      description := some "Calculate midpoint in degrees",
      returnType := some .number }),
   ("swe_split_deg",
    { friendlyName := some "splitDegrees",
      description := some "Split degrees into components",
      outputs := [("ideg", .int32 (some "degrees")), ("imin", .int32 (some "minutes")),
                  ("isec", .int32 (some "seconds")), ("dsecfr", .float64 (some "secondFraction")),
                  ("isgn", .int32 (some "sign"))],
      returnType := some .void, resultType := some "SplitDegrees" }),
   ("swe_csnorm",
    { friendlyName := some "normalizeCentiseconds",
      description := some "Normalize centiseconds",
      returnType := some .number }),
   ("swe_difcsn",
    { friendlyName := some "differenceCentiseconds",
      description := some "Difference in centiseconds (normalized)",
      returnType := some .number }),
   ("swe_difdegn",
    { friendlyName := some "differenceDegrees",
      description := some "Difference in degrees (normalized)",
      returnType := some .number }),
   ("swe_difcs2n",
    { friendlyName := some "differenceCentiseconds2",
      description := some "Difference in centiseconds (-180..180)",
      returnType := some .number }),
   ("swe_difdeg2n",
    { friendlyName := some "differenceDegrees2",
      description := some "Difference in degrees (-180..180)",
      returnType := some .number }),
   ("swe_difrad2n",
    { friendlyName := some "differenceRadians2",
      description := some "Difference in radians (-π..π)",
      returnType := some .number }),
   ("swe_csroundsec",
    { friendlyName := some "roundCentiseconds",
      description := some "Round centiseconds to seconds",
      returnType := some .number }),
   ("swe_d2l",
    { friendlyName := some "doubleToLong",
      description := some "Convert double to long",
      returnType := some .number }),
   ("swe_day_of_week",
    { friendlyName := some "dayOfWeek", description := some "Get day of week (0=Mon)",
      returnType := some .number })
  ]

/-- the `Other / Configuration` section of the `functionConfig` table. -/
def functionConfigOther : List (String × FunctionConfig) :=
  [("swe_close",
    { friendlyName := some "close",
      description := some "Close Swiss Ephemeris and free resources",
      returnType := some .void }),
   ("swe_set_ephe_path",
    { friendlyName := some "setEphemerisPath",
      description := some "Set path to ephemeris files",
      inputStrings := ["path"], returnType := some .void }),
   ("swe_set_jpl_file",
    { friendlyName := some "setJplFile", description := some "Set JPL ephemeris file",
      inputStrings := ["fname"], returnType := some .void }),
   ("swe_get_planet_name",
    { friendlyName := some "getPlanetName", description := some "Get name of a planet",
      outputs := [("spname", .stringBuf 64)],
      returnType := some .number }),
   ("swe_set_topo",
    { friendlyName := some "setTopocentric",
      description := some "Set topocentric observer location",
      returnType := some .void }),
   ("swe_set_lapse_rate",
    { friendlyName := some "setLapseRate",
      description := some "Set atmospheric lapse rate",
      returnType := some .void }),
   ("swe_set_interpolate_nut",
    { friendlyName := some "setInterpolateNutation",
      description := some "Set nutation interpolation",
      returnType := some .void }),
   ("swe_get_tid_acc",
    { friendlyName := some "getTidalAcceleration",
      description := some "Get tidal acceleration",
      returnType := some .number }),
   ("swe_set_tid_acc",
    { friendlyName := some "setTidalAcceleration",
      description := some "Set tidal acceleration",
      returnType := some .void }),
   ("swe_set_delta_t_userdef",
    { friendlyName := some "setDeltaTUserDefined",
      description := some "Set user-defined delta T",
      returnType := some .void }),
   ("swe_set_astro_models",
    { friendlyName := some "setAstroModels", description := some "Set astronomical models",
      skip := true }),
   ("swe_get_astro_models",
    { friendlyName := some "getAstroModels", description := some "Get astronomical models",
      skip := true })
  ]

/-- the `functionConfig` table of function-config.ts: its sections in source order. -/
def functionConfig : List (String × FunctionConfig) :=
  functionConfigCore ++ functionConfigFixedStars ++ functionConfigDateTime ++ functionConfigHouses ++ functionConfigEclipses ++ functionConfigRiseTransit ++ functionConfigHeliacal ++ functionConfigCoordTrans ++ functionConfigDeltaT ++ functionConfigSidereal ++ functionConfigUtility ++ functionConfigOther

/-- `functionConfig[name]` (JS object key lookup). -/
def lookupConfig (name : String) : Option FunctionConfig :=
  (functionConfig.find? (fun e => e.1 = name)).map (fun e => e.2)

/-! ## The friendly-wrapper emitter (text level) -/

/-- JS `String.prototype.replace` with a plain-string pattern: replace the
first occurrence only. -/
def replaceFirstSub (s : String) (pat : String) : String :=
  match splitOnSub s.data pat.data with
  | none => s
  | some (b, a) => String.mk (b ++ a)

/-- `outputs[p.name]` on the entry-list model of the outputs record. -/
def lookupOut (outputs : List (String × OutputType)) (n : String) : Option OutputType :=
  (outputs.find? (fun e => e.1 = n)).map (fun e => e.2)

/-- an element of the `outputReads` array of `generateWrapperFunction`. -/
structure WOutputRead where
  param : String
  ty : OutputType
  varName : String
deriving Repr, DecidableEq

/-- `getOutputSize` of generate-bindings.ts (the text spliced into the
`raw.malloc(...)` call). -/
def getOutputSize : OutputType → String
  | .float64 _ => "8"
  | .float64Arr n _ => toString n ++ " * 8"
  | .int32 _ => "4"
  | .int32Arr n _ => toString n ++ " * 4"
  | .stringBuf s => toString s
  | .errorBuf s => toString s

/-- the TS type text of an output in `inferResultType`. -/
def tsTypeOfOutput : OutputType → String
  | .float64Arr _ _ => "number[]"
  | .int32Arr _ _ => "number[]"
  | .stringBuf _ => "string"
  | _ => "number"

/-- the aggregate object type text of `inferResultType`. -/
def objectResultType (es : List (String × OutputType)) : String :=
  "\x7b " ++
    String.intercalate "; "
      (es.map (fun e => (e.2.nameFld.getD e.1) ++ ": " ++ tsTypeOfOutput e.2)) ++
    " \x7d"

/-- `inferResultType` of generate-bindings.ts. -/
def inferResultType (config : FunctionConfig) (outputs : List (String × OutputType)) :
    String :=
  match config.resultType with
  | some r => r
  | none =>
    let outputEntries := outputs.filter (fun e => !e.2.isError)
    match outputEntries with
    | [(nm, t)] =>
      match t with
      | .float64 _ => "number"
      | .int32 _ => "number"
      | .stringBuf _ => "string"
      | .float64Arr _ _ => "number[]"
      | .int32Arr _ _ => "number[]"
      | .errorBuf _ => objectResultType [(nm, t)]
    | es => objectResultType es

/-- `buildSignature` of generate-bindings.ts. -/
def buildSignature (inputParams : List FunctionParam) (inputStrings : List String)
    (config : FunctionConfig) (returnType : RetMode)
    (outputs : List (String × OutputType)) : String :=
  let params := inputParams.map (fun p =>
    if inputStrings.contains p.name then p.name ++ ": string"
    else if p.name = "hsys" then p.name ++ ": number | string"
    else p.name ++ ": number")
  let resultType :=
    match returnType with
    | .number => if outputs.isEmpty then "number" else inferResultType config outputs
    | .checkNegative => inferResultType config outputs
    | .checkError => inferResultType config outputs
    | .void => if outputs.isEmpty then "void" else inferResultType config outputs
  "(" ++ String.intercalate ", " params ++ "): " ++ resultType

/-- the shared body of the `DateComponents` / `UtcComponents` / `SplitDegrees`
branches of `buildReturnValue` (three textually identical blocks in the
source). -/
def brvComponents (nonErr : List WOutputRead) (indent : String) : List String :=
  [indent ++ "return \x7b"] ++
    nonErr.map (fun o =>
      let readFn := match o.ty with
        | .int32 _ => "getInt32"
        | _ => "getFloat64"
      indent ++ "  " ++ (o.ty.nameFld.getD o.param) ++ ": mem." ++ readFn ++ "(" ++
        o.varName ++ "),") ++
    [indent ++ "\x7d;"]

/-- the named-result-shape branches of `buildReturnValue`; `none` when the
branch's required output is absent, in which case the source falls through to
the generic handling. -/
def brvSpecial (outputReads : List WOutputRead) (nonErr : List WOutputRead)
    (config : FunctionConfig) (indent : String) : Option (List String) :=
  if config.resultType = some "PlanetPosition" then
    match outputReads.find? (fun o => o.param = "xx" ∨ o.param = "xxret") with
    | some xxOutput =>
        some [indent ++ "const xx = mem.getFloat64Array(" ++ xxOutput.varName ++ ", 6);",
          indent ++ "return \x7b",
          indent ++ "  longitude: xx[0],",
          indent ++ "  latitude: xx[1],",
          indent ++ "  distance: xx[2],",
          indent ++ "  longitudeSpeed: xx[3],",
          indent ++ "  latitudeSpeed: xx[4],",
          indent ++ "  distanceSpeed: xx[5],",
          indent ++ "\x7d;"]
    | none => none
  else if config.resultType = some "DateComponents" then some (brvComponents nonErr indent)
  else if config.resultType = some "UtcComponents" then some (brvComponents nonErr indent)
  else if config.resultType = some "SplitDegrees" then some (brvComponents nonErr indent)
  else if config.resultType = some "HouseResult" then
    match outputReads.find? (fun o => o.param = "cusps"),
        outputReads.find? (fun o => o.param = "ascmc") with
    | some cuspsOutput, some ascmcOutput =>
        some [indent ++ "const cusps = mem.getFloat64Array(" ++ cuspsOutput.varName ++ ", 13);",
          indent ++ "const ascmc = mem.getFloat64Array(" ++ ascmcOutput.varName ++ ", 10);",
          indent ++ "return \x7b",
          indent ++ "  cusps: cusps.slice(1), // cusps[0] is unused",
          indent ++ "  ascendant: ascmc[0],",
          indent ++ "  mc: ascmc[1],",
          indent ++ "  armc: ascmc[2],",
          indent ++ "  vertex: ascmc[3],",
          indent ++ "  equatorialAscendant: ascmc[4],",
          indent ++ "  coAscendantKoch: ascmc[5],",
          indent ++ "  coAscendantMunkasey: ascmc[6],",
          indent ++ "  polarAscendant: ascmc[7],",
          indent ++ "\x7d;"]
    | _, _ => none
  else if config.resultType = some "HouseResultWithSpeed" then
    match outputReads.find? (fun o => o.param = "cusps"),
        outputReads.find? (fun o => o.param = "ascmc") with
    | some cuspsOutput, some ascmcOutput =>
      let cuspSpeedOutput := outputReads.find? (fun o => o.param = "cusp_speed")
      let ascmcSpeedOutput := outputReads.find? (fun o => o.param = "ascmc_speed")
      some
        ([indent ++ "const cusps = mem.getFloat64Array(" ++ cuspsOutput.varName ++ ", 13);",
          indent ++ "const ascmc = mem.getFloat64Array(" ++ ascmcOutput.varName ++ ", 10);"] ++
          (match cuspSpeedOutput with
           | some c => [indent ++ "const cuspSpeeds = mem.getFloat64Array(" ++ c.varName ++ ", 13);"]
           | none => []) ++
          (match ascmcSpeedOutput with
           | some a => [indent ++ "const ascmcSpeeds = mem.getFloat64Array(" ++ a.varName ++ ", 10);"]
           | none => []) ++
          [indent ++ "return \x7b",
           indent ++ "  cusps: cusps.slice(1),",
           indent ++ "  ascendant: ascmc[0],",
           indent ++ "  mc: ascmc[1],",
           indent ++ "  armc: ascmc[2],",
           indent ++ "  vertex: ascmc[3],",
           indent ++ "  equatorialAscendant: ascmc[4],",
           indent ++ "  coAscendantKoch: ascmc[5],",
           indent ++ "  coAscendantMunkasey: ascmc[6],",
           indent ++ "  polarAscendant: ascmc[7],"] ++
          (match cuspSpeedOutput with
           | some _ => [indent ++ "  cuspSpeeds: cuspSpeeds.slice(1),"]
           | none => []) ++
          (match ascmcSpeedOutput with
           | some _ => [indent ++ "  ascmcSpeeds: Array.from(ascmcSpeeds),"]
           | none => []) ++
          [indent ++ "\x7d;"])
    | _, _ => none
  else if config.resultType = some "JulianDayResult" then
    match outputReads.find? (fun o => o.param = "dret") with
    | some dretOutput =>
        some [indent ++ "const dret = mem.getFloat64Array(" ++ dretOutput.varName ++ ", 2);",
          indent ++ "return \x7b et: dret[0], ut: dret[1] \x7d;"]
    | none => none
  else if config.resultType = some "AzimuthAltitude" then
    match outputReads.find? (fun o => o.param = "xaz") with
    | some xazOutput =>
        some [indent ++ "const xaz = mem.getFloat64Array(" ++ xazOutput.varName ++ ", 3);",
          indent ++ "return \x7b azimuth: xaz[0], trueAltitude: xaz[1], apparentAltitude: xaz[2] \x7d;"]
    | none => none
  else if config.resultType = some "PhenomenaResult" then
    match outputReads.find? (fun o => o.param = "attr") with
    | some attrOutput =>
        some [indent ++ "const attr = mem.getFloat64Array(" ++ attrOutput.varName ++ ", 20);",
          indent ++ "return \x7b",
          indent ++ "  phaseAngle: attr[0],",
          indent ++ "  phase: attr[1],",
          indent ++ "  elongation: attr[2],",
          indent ++ "  apparentDiameter: attr[3],",
          indent ++ "  apparentMagnitude: attr[4],",
          indent ++ "\x7d;"]
    | none => none
  else if config.resultType = some "NodesApsidesResult" then
    some [indent ++ "const xnasc = mem.getFloat64Array(xnascPtr, 6);",
      indent ++ "const xndsc = mem.getFloat64Array(xndscPtr, 6);",
      indent ++ "const xperi = mem.getFloat64Array(xperiPtr, 6);",
      indent ++ "const xaphe = mem.getFloat64Array(xaphePtr, 6);",
      indent ++ "const toPos = (arr: number[]): PlanetPosition => (\x7b",
      indent ++ "  longitude: arr[0], latitude: arr[1], distance: arr[2],",
      indent ++ "  longitudeSpeed: arr[3], latitudeSpeed: arr[4], distanceSpeed: arr[5],",
      indent ++ "\x7d);",
      indent ++ "return \x7b",
      indent ++ "  ascendingNode: toPos(Array.from(xnasc)),",
      indent ++ "  descendingNode: toPos(Array.from(xndsc)),",
      indent ++ "  perihelion: toPos(Array.from(xperi)),",
      indent ++ "  aphelion: toPos(Array.from(xaphe)),",
      indent ++ "\x7d;"]
  else if config.resultType = some "OrbitalElements" then
    match outputReads.find? (fun o => o.param = "dret") with
    | some dretOutput =>
        some [indent ++ "return \x7b elements: mem.getFloat64Array(" ++ dretOutput.varName ++ ", 50) \x7d;"]
    | none => none
  else if config.resultType = some "EclipseTimeResult" then
    match outputReads.find? (fun o => o.param = "tret") with
    | some tretOutput =>
      some
        ([indent ++ "const times = mem.getFloat64Array(" ++ tretOutput.varName ++ ", 10);"] ++
          (match outputReads.find? (fun o => o.param = "attr") with
           | some attrOutput =>
               [indent ++ "const attributes = mem.getFloat64Array(" ++ attrOutput.varName ++ ", 20);",
                indent ++ "return \x7b times: Array.from(times), attributes: Array.from(attributes) \x7d;"]
           | none => [indent ++ "return \x7b times: Array.from(times) \x7d;"]))
    | none => none
  else if config.resultType = some "EclipseWhereResult" then
    match outputReads.find? (fun o => o.param = "geopos"),
        outputReads.find? (fun o => o.param = "attr") with
    | some geoposOutput, some attrOutput =>
        some [indent ++ "return \x7b",
          indent ++ "  geopos: mem.getFloat64Array(" ++ geoposOutput.varName ++ ", 10),",
          indent ++ "  attributes: mem.getFloat64Array(" ++ attrOutput.varName ++ ", 20),",
          indent ++ "\x7d;"]
    | _, _ => none
  else if config.resultType = some "EclipseAttributes" then
    match outputReads.find? (fun o => o.param = "attr") with
    | some attrOutput =>
        some [indent ++ "return \x7b attributes: mem.getFloat64Array(" ++ attrOutput.varName ++ ", 20) \x7d;"]
    | none => none
  else none

/-- `buildReturnValue` of generate-bindings.ts (text level). -/
def buildReturnValue (outputReads : List WOutputRead) (config : FunctionConfig)
    (returnType : RetMode) (indent : String) : List String :=
  let nonErr := outputReads.filter (fun o => !o.ty.isError)
  if nonErr.isEmpty then
    if returnType ≠ .void then [indent ++ "return ret;"] else []
  else
    match brvSpecial outputReads nonErr config indent with
    | some lines => lines
    | none =>
      match nonErr with
      | [o] =>
        (match o.ty with
         | .float64 _ => [indent ++ "return mem.getFloat64(" ++ o.varName ++ ");"]
         | .int32 _ => [indent ++ "return mem.getInt32(" ++ o.varName ++ ");"]
         | .stringBuf _ => [indent ++ "return mem.getString(" ++ o.varName ++ ");"]
         | .float64Arr n _ =>
             [indent ++ "return mem.getFloat64Array(" ++ o.varName ++ ", " ++ toString n ++ ");"]
         | .int32Arr n _ =>
             [indent ++ "const arr: number[] = [];",
              indent ++ "for (let i = 0; i < " ++ toString n ++
                "; i++) arr.push(mem.getInt32(" ++ o.varName ++ " + i * 4));",
              indent ++ "return arr;"]
         | .errorBuf _ => [])
      | _ =>
        [indent ++ "return \x7b"] ++
          nonErr.filterMap (fun o =>
            match o.ty with
            | .float64 _ =>
                some (indent ++ "  " ++ (o.ty.nameFld.getD o.param) ++ ": mem.getFloat64(" ++ o.varName ++ "),")
            | .int32 _ =>
                some (indent ++ "  " ++ (o.ty.nameFld.getD o.param) ++ ": mem.getInt32(" ++ o.varName ++ "),")
            | .stringBuf _ =>
                some (indent ++ "  " ++ (o.ty.nameFld.getD o.param) ++ ": mem.getString(" ++ o.varName ++ "),")
            | .float64Arr n _ =>
                some (indent ++ "  " ++ (o.ty.nameFld.getD o.param) ++ ": mem.getFloat64Array(" ++
                  o.varName ++ ", " ++ toString n ++ "),")
            | _ => none) ++
          [indent ++ "\x7d;"]

/-- `generateWrapperFunction` of generate-bindings.ts (the emitted wrapper
text, one line per list element). -/
def generateWrapperFunction (fn : FunctionDecl) (config : FunctionConfig) : List String :=
  let friendlyName := config.friendlyName.getD (replaceFirstSub fn.name "swe_")
  let outputs := config.outputs
  let inputStrings := config.inputStrings
  let returnType := config.returnType.getD .number
  let inputParams := fn.params.filter (fun p => (lookupOut outputs p.name).isNone)
  let signature := buildSignature inputParams inputStrings config returnType outputs
  let descLines := match config.description with
    | some d => ["/** " ++ d ++ " */"]
    | none => []
  let outputReads := outputs.map (fun e => WOutputRead.mk e.1 e.2 (e.1 ++ "Ptr"))
  let allocations :=
    outputs.map (fun e =>
      "const " ++ e.1 ++ "Ptr = raw.malloc(" ++ getOutputSize e.2 ++ ");") ++
    inputStrings.map (fun p => "const " ++ p ++ "Ptr = mem.allocString(" ++ p ++ ");")
  let frees :=
    outputs.map (fun e => "raw.free(" ++ e.1 ++ "Ptr);") ++
    inputStrings.map (fun p => "raw.free(" ++ p ++ "Ptr);")
  let callArgs := String.intercalate ", " (fn.params.map (fun p =>
    if (lookupOut outputs p.name).isSome then p.name ++ "Ptr"
    else if inputStrings.contains p.name then p.name ++ "Ptr"
    else if p.name = "hsys" then "(typeof hsys === \"string\" ? hsys.charCodeAt(0) : hsys)"
    else p.name))
  let indent := if allocations.length > 0 then "    " else "  "
  let callLine :=
    if returnType = .void then indent ++ "raw." ++ fn.name ++ "(" ++ callArgs ++ ");"
    else indent ++ "const ret = raw." ++ fn.name ++ "(" ++ callArgs ++ ");"
  let errLines :=
    if returnType = .checkNegative ∨ returnType = .checkError then
      match outputReads.find? (fun o => o.ty.isError) with
      | some errorRead =>
          [indent ++ "if (ret < 0) \x7b",
           indent ++ "  const errMsg = mem.getString(" ++ errorRead.varName ++ ");",
           indent ++ "  throw new Error(errMsg || \"Swiss Ephemeris error\");",
           indent ++ "\x7d"]
      | none => []
    else []
  let returnCode := buildReturnValue outputReads config returnType indent
  descLines ++ [friendlyName ++ ": " ++ signature ++ " => \x7b"] ++
    allocations.map (fun a => "  " ++ a) ++
    (if allocations.length > 0 then ["  try \x7b"] else []) ++
    [callLine] ++ errLines ++ returnCode ++
    (if allocations.length > 0 then
      ["  \x7d finally \x7b"] ++ frees.map (fun f => "    " ++ f) ++ ["  \x7d"]
     else []) ++
    ["\x7d,"]

/-- `generateResultTypes` of generate-bindings.ts (a fixed block of interface
declarations). -/
def generateResultTypes : List String :=
  ["// Result Types", "",
   "export interface PlanetPosition \x7b",
   "  longitude: number;", "  latitude: number;", "  distance: number;",
   "  longitudeSpeed: number;", "  latitudeSpeed: number;", "  distanceSpeed: number;",
   "\x7d", "",
   "export interface DateComponents \x7b",
   "  year: number;", "  month: number;", "  day: number;", "  hour: number;",
   "\x7d", "",
   "export interface UtcComponents \x7b",
   "  year: number;", "  month: number;", "  day: number;", "  hour: number;",
   "  minute: number;", "  second: number;",
   "\x7d", "",
   "export interface HouseResult \x7b",
   "  cusps: number[];", "  ascendant: number;", "  mc: number;", "  armc: number;",
   "  vertex: number;", "  equatorialAscendant: number;", "  coAscendantKoch: number;",
   "  coAscendantMunkasey: number;", "  polarAscendant: number;",
   "\x7d", "",
   "export interface HouseResultWithSpeed extends HouseResult \x7b",
   "  cuspSpeeds: number[];", "  ascmcSpeeds: number[];",
   "\x7d", "",
   "export interface SplitDegrees \x7b",
   "  degrees: number;", "  minutes: number;", "  seconds: number;",
   "  secondFraction: number;", "  sign: number;",
   "\x7d", "",
   "export interface JulianDayResult \x7b",
   "  et: number;", "  ut: number;",
   "\x7d", "",
   "export interface AzimuthAltitude \x7b",
   "  azimuth: number;", "  trueAltitude: number;", "  apparentAltitude: number;",
   "\x7d", "",
   "export interface PhenomenaResult \x7b",
   "  phaseAngle: number;", "  phase: number;", "  elongation: number;",
   "  apparentDiameter: number;", "  apparentMagnitude: number;",
   "\x7d", "",
   "export interface NodesApsidesResult \x7b",
   "  ascendingNode: PlanetPosition;", "  descendingNode: PlanetPosition;",
   "  perihelion: PlanetPosition;", "  aphelion: PlanetPosition;",
   "\x7d", "",
   "export interface EclipseTimeResult \x7b",
   "  times: number[];", "  attributes?: number[];",
   "\x7d", "",
   "export interface EclipseWhereResult \x7b",
   "  geopos: number[];", "  attributes: number[];",
   "\x7d", "",
   "export interface EclipseAttributes \x7b",
   "  attributes: number[];",
   "\x7d", "",
   "export interface OrbitalElements \x7b",
   "  elements: number[];",
   "\x7d"]

/-- `generateFriendlyWrappers` of generate-bindings.ts. -/
def generateFriendlyWrappers (functions : List FunctionDecl) : String :=
  let headerLines : List String :=
    ["/**", " * Swiss Ephemeris Friendly API", " * Auto-generated - DO NOT EDIT", " *",
     " * Provides TypeScript-friendly wrappers around the raw WASM interface.",
     " * Handles memory allocation/deallocation automatically.", " */", "",
     "import type \x7b SwissEphWasm \x7d from \"./functions.js\";",
     "import \x7b loadSwissEph \x7d from \"../loader.js\";",
     "import \x7b createMemoryHelpers, type MemoryHelpers \x7d from \"../helpers.js\";",
     ""]
  let factoryLines : List String :=
    ["/**", " * Create a Swiss Ephemeris instance with friendly API.", " *",
     " * All functions handle memory management automatically.",
     " * Call close() when done to free resources.", " *", " * @example",
     " * \x60\x60\x60ts",
     " * const swe = await createSwissEph();",
     " * const jd = swe.julday(2024, 1, 1, 12.0);",
     " * const sun = swe.calc(jd, SE_SUN, SEFLG_SPEED);",
     " * console.log(sun.longitude);",
     " * swe.close();",
     " * \x60\x60\x60", " */",
     "export async function createSwissEph() \x7b",
     "  const raw = await loadSwissEph();",
     "  const mem = createMemoryHelpers(raw);",
     "",
     "  return \x7b"]
  let wrapperLines : List String := functions.foldl
    (fun acc fn =>
      let config := (lookupConfig fn.name).getD
        { friendlyName := some (replaceFirstSub fn.name "swe_") }
      if config.skip then acc
      else acc ++ (generateWrapperFunction fn config).map (fun l => "    " ++ l) ++ [""])
    []
  let tailLines : List String :=
    ["    /** Access raw WASM interface for advanced usage */", "    raw,", "",
     "    /** Memory helpers for advanced usage */", "    mem,",
     "  \x7d;", "\x7d", "",
     "export type SwissEph = Awaited<ReturnType<typeof createSwissEph>>;", ""]
  String.intercalate "\n"
    (headerLines ++ generateResultTypes ++ [""] ++ factoryLines ++ wrapperLines ++ tailLines)

/-! ## Runtime semantics of the synthesized wrappers

`generateWrapperFunction` emits TypeScript text; the definitions below give
that text its runtime meaning, following the emitted code line by line: the
allocation prologue, the positional native call, the negative-return check
(present exactly when the emitted `if (ret < 0)` block is present), the
result construction of `buildReturnValue`, and the `finally` block releasing
every allocation.  Linear memory is a map from byte addresses to abstract
cell values (the wrappers only move values, so cells carry `Int`); the
native routine is an oracle from the call arguments and the memory to the
return value and the post-call memory. -/

/-- linear memory. -/
def Mem : Type := Nat → Int

/-- an allocation or release event of one wrapper invocation. -/
inductive WEvent where
  | alloc (ptr : Nat) (size : Nat)
  | free (ptr : Nat)
deriving Repr, DecidableEq

/-- a value passed to a wrapper's public signature: a number, or a byte
string for input-string parameters and the symbolic `hsys` code. -/
inductive WVal where
  | num (i : Int)
  | str (bytes : List Int)
deriving Repr, DecidableEq

/-- the numeric reading of a public argument. -/
def WVal.asNum : WVal → Int
  | .num i => i
  | .str _ => 0

/-- the string reading of a public argument. -/
def WVal.asStr : WVal → List Int
  | .num _ => []
  | .str bs => bs

/-- `(typeof hsys === "string" ? hsys.charCodeAt(0) : hsys)`: the first code
unit of a symbolic code (JS yields NaN on an empty string — outside the
integer model; every real caller passes one character). -/
def hsysArg : WVal → Int
  | .num i => i
  | .str bs => bs.headD 0

/-- allocator and memory state during one invocation: a bump allocator over
the linear memory plus the event trace. -/
structure WState where
  next : Nat
  mem : Mem
  events : List WEvent

/-- `raw.malloc(size)`. -/
def mallocW (size : Nat) (σ : WState) : Nat × WState :=
  (σ.next,
   { σ with next := σ.next + size, events := σ.events ++ [.alloc σ.next size] })

/-- write consecutive cells. -/
def writeBytes (m : Mem) (ptr : Nat) (bs : List Int) : Mem :=
  fun a => if ptr ≤ a ∧ a < ptr + bs.length then bs.getD (a - ptr) 0 else m a

/-- `mem.allocString(s)` of helpers.ts: allocate `length + 1` cells and store
the bytes followed by the terminating zero. -/
def allocStringW (s : List Int) (σ : WState) : Nat × WState :=
  let (ptr, σ2) := mallocW (s.length + 1) σ
  (ptr, { σ2 with mem := writeBytes σ2.mem ptr (s ++ [0]) })

/-- the byte size of an output descriptor: the value of the `getOutputSize`
text (8 per float64 element, 4 per int32 element, the declared size for
string and error buffers). -/
def outSize : OutputType → Nat
  | .float64 _ => 8
  | .float64Arr n _ => n * 8
  | .int32 _ => 4
  | .int32Arr n _ => n * 4
  | .stringBuf s => s
  | .errorBuf s => s

/-- an `outputReads` entry at run time: parameter name, descriptor, buffer
address. -/
structure ORead where
  param : String
  ty : OutputType
  ptr : Nat
deriving Repr, DecidableEq

/-- the output-allocation loop of the wrapper prologue (one `raw.malloc` per
configured output, in entry order). -/
def allocOutputs (outs : List (String × OutputType)) (σ : WState) :
    List ORead × WState :=
  outs.foldl
    (fun (acc : List ORead × WState) e =>
      let (p, σ2) := mallocW (outSize e.2) acc.2
      (acc.1 ++ [⟨e.1, e.2, p⟩], σ2))
    ([], σ)

/-- the input-string allocation loop of the wrapper prologue (one
`mem.allocString` per configured input string, in order). -/
def allocInputStrings (names : List String) (env : String → WVal) (σ : WState) :
    List (String × Nat) × WState :=
  names.foldl
    (fun (acc : List (String × Nat) × WState) p =>
      let (ptr, σ2) := allocStringW ((env p).asStr) acc.2
      (acc.1 ++ [(p, ptr)], σ2))
    ([], σ)

/-- the whole allocation prologue. -/
def wAllocPhase (cfg : FunctionConfig) (env : String → WVal) (σ0 : WState) :
    List ORead × List (String × Nat) × WState :=
  ((allocOutputs cfg.outputs σ0).1,
   (allocInputStrings cfg.inputStrings env (allocOutputs cfg.outputs σ0).2).1,
   (allocInputStrings cfg.inputStrings env (allocOutputs cfg.outputs σ0).2).2)

/-- the `outputReads` list of one invocation. -/
def wOReads (cfg : FunctionConfig) (env : String → WVal) (σ0 : WState) : List ORead :=
  (wAllocPhase cfg env σ0).1

/-- the input-string pointers of one invocation. -/
def wSPtrs (cfg : FunctionConfig) (env : String → WVal) (σ0 : WState) :
    List (String × Nat) :=
  (wAllocPhase cfg env σ0).2.1

/-- the allocator/memory state after the prologue. -/
def wPostState (cfg : FunctionConfig) (env : String → WVal) (σ0 : WState) : WState :=
  (wAllocPhase cfg env σ0).2.2

/-- the `frees` list: one release obligation per allocation, in allocation
order (outputs first, then input strings). -/
def wFrees (cfg : FunctionConfig) (env : String → WVal) (σ0 : WState) : List Nat :=
  (wOReads cfg env σ0).map (fun o => o.ptr) ++ (wSPtrs cfg env σ0).map (fun e => e.2)

/-- the full event trace of one invocation that returns or raises: the
allocation events of the prologue followed by the `finally` releases. -/
def wFinalEvents (cfg : FunctionConfig) (env : String → WVal) (σ0 : WState) :
    List WEvent :=
  (wPostState cfg env σ0).events ++ (wFrees cfg env σ0).map WEvent.free

/-- the positional native-call arguments: buffer addresses for output and
input-string parameters, the symbolic-code conversion for `hsys`, the plain
value otherwise. -/
def wCallArgs (fn : FunctionDecl) (cfg : FunctionConfig) (oreads : List ORead)
    (sptrs : List (String × Nat)) (env : String → WVal) : List Int :=
  fn.params.map (fun p =>
    if (lookupOut cfg.outputs p.name).isSome then
      (((oreads.find? (fun o => o.param = p.name)).map (fun o => (o.ptr : Int))).getD 0)
    else if cfg.inputStrings.contains p.name then
      (((sptrs.find? (fun e => e.1 = p.name)).map (fun e => (e.2 : Int))).getD 0)
    else if p.name = "hsys" then hsysArg (env p.name)
    else (env p.name).asNum)

/-- the native routine as an oracle. -/
def Native : Type := List Int → Mem → Int × Mem

/-- return value and memory after the native call. -/
def wPostCall (fn : FunctionDecl) (cfg : FunctionConfig) (env : String → WVal)
    (native : Native) (σ0 : WState) : Int × Mem :=
  native (wCallArgs fn cfg (wOReads cfg env σ0) (wSPtrs cfg env σ0) env)
    (wPostState cfg env σ0).mem

/-- `mem.getFloat64`. -/
def getFloat64 (m : Mem) (ptr : Nat) : Int := m ptr

/-- `mem.getInt32`. -/
def getInt32 (m : Mem) (ptr : Nat) : Int := m ptr

/-- `mem.getFloat64Array`. -/
def getFloat64Array (m : Mem) (ptr : Nat) (count : Nat) : List Int :=
  (List.range count).map (fun i => m (ptr + i * 8))

/-- `mem.getString` inside a wrapper: scan to the first zero cell; `none`
models the unbounded scan when no terminator is found within `fuel` cells. -/
def getStringW (m : Mem) : Nat → Nat → Option (List Int)
  | 0, _ => none
  | fuel + 1, ptr =>
    if m ptr = 0 then some []
    else (getStringW m fuel (ptr + 1)).map (fun bs => m ptr :: bs)

/-- the byte content of `"Swiss Ephemeris error"`, the fallback message of
the emitted `throw new Error(errMsg || "Swiss Ephemeris error")`. -/
def fallbackErrMsg : List Int :=
  ("Swiss Ephemeris error").data.map (fun c => (c.toNat : Int))

/-- a structured runtime result of a wrapper. -/
inductive RVal where
  | unit
  | numv (i : Int)
  | arr (xs : List Int)
  | strv (bs : List Int)
  | obj (fields : List (String × RVal))
deriving Repr

/-- the `toPos` object of the nodes/apsides shape and the `PlanetPosition`
field layout (a six-element vector exposed as longitude / latitude /
distance and their three rates of change). -/
def planetPosObj (xs : List Int) : RVal :=
  .obj [("longitude", .numv (xs.getD 0 0)), ("latitude", .numv (xs.getD 1 0)),
        ("distance", .numv (xs.getD 2 0)), ("longitudeSpeed", .numv (xs.getD 3 0)),
        ("latitudeSpeed", .numv (xs.getD 4 0)), ("distanceSpeed", .numv (xs.getD 5 0))]

/-- the field-per-output object of the `DateComponents` / `UtcComponents` /
`SplitDegrees` branches: each non-error output read with `getInt32` or
`getFloat64` under its public name. -/
def componentsObj (nonErr : List ORead) (m : Mem) : RVal :=
  .obj (nonErr.map (fun o =>
    (o.ty.nameFld.getD o.param,
     match o.ty with
     | .int32 _ => RVal.numv (getInt32 m o.ptr)
     | _ => RVal.numv (getFloat64 m o.ptr))))

/-- the `ascmc` fields of the two house shapes. -/
def ascmcFields (ascmc : List Int) : List (String × RVal) :=
  [("ascendant", .numv (ascmc.getD 0 0)), ("mc", .numv (ascmc.getD 1 0)),
   ("armc", .numv (ascmc.getD 2 0)), ("vertex", .numv (ascmc.getD 3 0)),
   ("equatorialAscendant", .numv (ascmc.getD 4 0)),
   ("coAscendantKoch", .numv (ascmc.getD 5 0)),
   ("coAscendantMunkasey", .numv (ascmc.getD 6 0)),
   ("polarAscendant", .numv (ascmc.getD 7 0))]

/-- the fields of the generic multiple-output object (`buildReturnValue`'s
final branch): one field per non-error output; an `int32[]` output has no
emitting branch there and yields no field; a string output requires the
terminator scan to finish. -/
def genericFieldsSem : List ORead → Mem → Nat → Option (List (String × RVal))
  | [], _, _ => some []
  | o :: rest, m, fuel =>
    match o.ty with
    | .float64 _ =>
        (genericFieldsSem rest m fuel).map
          (fun fs => (o.ty.nameFld.getD o.param, RVal.numv (getFloat64 m o.ptr)) :: fs)
    | .int32 _ =>
        (genericFieldsSem rest m fuel).map
          (fun fs => (o.ty.nameFld.getD o.param, RVal.numv (getInt32 m o.ptr)) :: fs)
    | .stringBuf _ =>
        match getStringW m fuel o.ptr with
        | none => none
        | some bs =>
            (genericFieldsSem rest m fuel).map
              (fun fs => (o.ty.nameFld.getD o.param, RVal.strv bs) :: fs)
    | .float64Arr n _ =>
        (genericFieldsSem rest m fuel).map
          (fun fs => (o.ty.nameFld.getD o.param, RVal.arr (getFloat64Array m o.ptr n)) :: fs)
    | .int32Arr _ _ => genericFieldsSem rest m fuel
    | .errorBuf _ => genericFieldsSem rest m fuel

/-- the runtime meaning of the result-construction code emitted by
`buildReturnValue`, branch for branch; `none` marks a computation the
emitted code cannot complete (an unterminated string scan, or the
nodes/apsides shape referencing a buffer variable that was never
declared). -/
def buildReturnValueSem (oreads : List ORead) (cfg : FunctionConfig)
    (returnType : RetMode) (ret : Int) (m : Mem) (fuel : Nat) : Option RVal :=
  let nonErr := oreads.filter (fun o => !o.ty.isError)
  if nonErr.isEmpty then
    if returnType ≠ .void then some (.numv ret) else some .unit
  else if cfg.resultType = some "PlanetPosition" then
    match oreads.find? (fun o => o.param = "xx" ∨ o.param = "xxret") with
    | some xx => some (planetPosObj (getFloat64Array m xx.ptr 6))
    | none => genericSem nonErr m fuel
  else if cfg.resultType = some "DateComponents" then some (componentsObj nonErr m)
  else if cfg.resultType = some "UtcComponents" then some (componentsObj nonErr m)
  else if cfg.resultType = some "SplitDegrees" then some (componentsObj nonErr m)
  else if cfg.resultType = some "HouseResult" then
    match oreads.find? (fun o => o.param = "cusps"),
        oreads.find? (fun o => o.param = "ascmc") with
    | some cu, some asc =>
      let cusps := getFloat64Array m cu.ptr 13
      let ascmc := getFloat64Array m asc.ptr 10
      some (.obj (("cusps", .arr (cusps.drop 1)) :: ascmcFields ascmc))
    | _, _ => genericSem nonErr m fuel
  else if cfg.resultType = some "HouseResultWithSpeed" then
    match oreads.find? (fun o => o.param = "cusps"),
        oreads.find? (fun o => o.param = "ascmc") with
    | some cu, some asc =>
      let cusps := getFloat64Array m cu.ptr 13
      let ascmc := getFloat64Array m asc.ptr 10
      let cuspSpeed := oreads.find? (fun o => o.param = "cusp_speed")
      let ascmcSpeed := oreads.find? (fun o => o.param = "ascmc_speed")
      some (.obj
        ((("cusps", RVal.arr (cusps.drop 1)) :: ascmcFields ascmc) ++
          (match cuspSpeed with
           | some c => [("cuspSpeeds", RVal.arr ((getFloat64Array m c.ptr 13).drop 1))]
           | none => []) ++
          (match ascmcSpeed with
           | some a => [("ascmcSpeeds", RVal.arr (getFloat64Array m a.ptr 10))]
           | none => [])))
    | _, _ => genericSem nonErr m fuel
  else if cfg.resultType = some "JulianDayResult" then
    match oreads.find? (fun o => o.param = "dret") with
    | some d =>
      let dret := getFloat64Array m d.ptr 2
      some (.obj [("et", .numv (dret.getD 0 0)), ("ut", .numv (dret.getD 1 0))])
    | none => genericSem nonErr m fuel
  else if cfg.resultType = some "AzimuthAltitude" then
    match oreads.find? (fun o => o.param = "xaz") with
    | some x =>
      let xaz := getFloat64Array m x.ptr 3
      some (.obj [("azimuth", .numv (xaz.getD 0 0)), ("trueAltitude", .numv (xaz.getD 1 0)),
                  ("apparentAltitude", .numv (xaz.getD 2 0))])
    | none => genericSem nonErr m fuel
  else if cfg.resultType = some "PhenomenaResult" then
    match oreads.find? (fun o => o.param = "attr") with
    | some a =>
      let attr := getFloat64Array m a.ptr 20
      some (.obj [("phaseAngle", .numv (attr.getD 0 0)), ("phase", .numv (attr.getD 1 0)),
                  ("elongation", .numv (attr.getD 2 0)),
                  ("apparentDiameter", .numv (attr.getD 3 0)),
                  ("apparentMagnitude", .numv (attr.getD 4 0))])
    | none => genericSem nonErr m fuel
  else if cfg.resultType = some "NodesApsidesResult" then
    match oreads.find? (fun o => o.param = "xnasc"),
        oreads.find? (fun o => o.param = "xndsc"),
        oreads.find? (fun o => o.param = "xperi"),
        oreads.find? (fun o => o.param = "xaphe") with
    | some n1, some n2, some n3, some n4 =>
      some (.obj
        [("ascendingNode", planetPosObj (getFloat64Array m n1.ptr 6)),
         ("descendingNode", planetPosObj (getFloat64Array m n2.ptr 6)),
         ("perihelion", planetPosObj (getFloat64Array m n3.ptr 6)),
         ("aphelion", planetPosObj (getFloat64Array m n4.ptr 6))])
    | _, _, _, _ => none
  else if cfg.resultType = some "OrbitalElements" then
    match oreads.find? (fun o => o.param = "dret") with
    | some d => some (.obj [("elements", .arr (getFloat64Array m d.ptr 50))])
    | none => genericSem nonErr m fuel
  else if cfg.resultType = some "EclipseTimeResult" then
    match oreads.find? (fun o => o.param = "tret") with
    | some t =>
      (match oreads.find? (fun o => o.param = "attr") with
       | some a =>
         some (.obj [("times", .arr (getFloat64Array m t.ptr 10)),
                     ("attributes", .arr (getFloat64Array m a.ptr 20))])
       | none => some (.obj [("times", .arr (getFloat64Array m t.ptr 10))]))
    | none => genericSem nonErr m fuel
  else if cfg.resultType = some "EclipseWhereResult" then
    match oreads.find? (fun o => o.param = "geopos"),
        oreads.find? (fun o => o.param = "attr") with
    | some g, some a =>
      some (.obj [("geopos", .arr (getFloat64Array m g.ptr 10)),
                  ("attributes", .arr (getFloat64Array m a.ptr 20))])
    | _, _ => genericSem nonErr m fuel
  else if cfg.resultType = some "EclipseAttributes" then
    match oreads.find? (fun o => o.param = "attr") with
    | some a => some (.obj [("attributes", .arr (getFloat64Array m a.ptr 20))])
    | none => genericSem nonErr m fuel
  else genericSem nonErr m fuel
where
  /-- the generic single-output and multiple-output handling at the end of
  `buildReturnValue`. -/
  genericSem (nonErr : List ORead) (m : Mem) (fuel : Nat) : Option RVal :=
    match nonErr with
    | [o] =>
      match o.ty with
      | .float64 _ => some (.numv (getFloat64 m o.ptr))
      | .int32 _ => some (.numv (getInt32 m o.ptr))
      | .stringBuf _ => (getStringW m fuel o.ptr).map RVal.strv
      | .float64Arr n _ => some (.arr (getFloat64Array m o.ptr n))
      | .int32Arr n _ =>
          some (.arr ((List.range n).map (fun i => getInt32 m (o.ptr + i * 4))))
      | .errorBuf _ => some .unit
    | _ => (genericFieldsSem nonErr m fuel).map RVal.obj

/-- the result construction of one invocation whose negative-return check
did not fire (or was absent): the value built by `buildReturnValue`'s code,
paired with the event trace. -/
def wBuildRes (fuel : Nat) (fn : FunctionDecl) (cfg : FunctionConfig)
    (env : String → WVal) (native : Native) (σ0 : WState) :
    Option (List WEvent × Except (List Int) RVal) :=
  (buildReturnValueSem (wOReads cfg env σ0) cfg (cfg.returnType.getD .number)
      (wPostCall fn cfg env native σ0).1 (wPostCall fn cfg env native σ0).2 fuel).map
    (fun rv => (wFinalEvents cfg env σ0, Except.ok rv))

/-- the runtime semantics of one invocation of the synthesized wrapper of
`fn` under `cfg`: the event trace together with the outcome (a raised
failure message or a constructed result); `none` is divergence (an
unterminated string scan), in which case the invocation neither returns nor
raises.  The negative-return check is present exactly when the emitted
`if (ret < 0)` block is: a `check-negative`/`check-error` mode together
with an error-buffer entry among the output reads. -/
def runWrapper (fuel : Nat) (fn : FunctionDecl) (cfg : FunctionConfig)
    (env : String → WVal) (native : Native) (σ0 : WState) :
    Option (List WEvent × Except (List Int) RVal) :=
  if cfg.returnType.getD .number = .checkNegative ∨
      cfg.returnType.getD .number = .checkError then
    match (wOReads cfg env σ0).find? (fun o => o.ty.isError) with
    | some er =>
      if (wPostCall fn cfg env native σ0).1 < 0 then
        match getStringW (wPostCall fn cfg env native σ0).2 fuel er.ptr with
        | none => none
        | some bs =>
            some (wFinalEvents cfg env σ0,
                  .error (if bs.isEmpty then fallbackErrMsg else bs))
      else wBuildRes fuel fn cfg env native σ0
    | none => wBuildRes fuel fn cfg env native σ0
  else wBuildRes fuel fn cfg env native σ0

/-! ## helpers.ts: createMemoryHelpers.getString -/

/-- the `while (mem[end] !== 0) end++` scan of `getString` on a buffer of
`buf.length` bytes: the first zero at or after `i`.  An out-of-bounds read
yields `undefined`, which is not `0`, so the scan never stops past the end;
`fuel` bounds the loop, and `none` means it has not terminated within
`fuel` iterations. -/
def scanZero (buf : List Nat) : Nat → Nat → Option Nat
  | 0, _ => none
  | fuel + 1, i =>
    match buf.get? i with
    | some 0 => some i
    | _ => scanZero buf fuel (i + 1)

/-- `getString(ptr)` of helpers.ts; the returned byte slice
`buf[ptr..end)` stands for its TextDecoder UTF-8 decoding (the decoder is an
external collaborator). -/
def helpersGetString (buf : List Nat) (fuel : Nat) (ptr : Nat) : Option (List Nat) :=
  (scanZero buf fuel ptr).map (fun e => (buf.drop ptr).take (e - ptr))

/-! ## main over a file-system model -/

/-- a file system: path to content. -/
def FS : Type := String → Option String

/-- `writeFileSync`. -/
def writeFS (fs : FS) (p : String) (content : String) : FS :=
  fun q => if q = p then some content else fs q

/-- the input path of `main` (relative to the package root). -/
def headerPath : String := "swephexp.h"

/-- output path of the constants document. -/
def constantsPath : String := "src/generated/constants.ts"

/-- output path of the raw-signatures document. -/
def functionsPath : String := "src/generated/functions.ts"

/-- output path of the friendly-wrappers document. -/
def friendlyPath : String := "src/generated/friendly.ts"

/-- output path of the re-export document. -/
def indexPath : String := "src/generated/index.ts"

/-- output path of the export-list artifact. -/
def exportsPath : String := "scripts/makefile-exports.txt"

/-- `main` of generate-bindings.ts over the file-system model: read the
header once, compute the artifacts, write each to its path in source order;
a missing header is the fatal read failure and produces nothing. -/
def mainFS (fs : FS) : Option FS :=
  match fs headerPath with
  | none => none
  | some header =>
    let constants := parseConstants header
    let functions := parseFunctions header
    let fs1 := writeFS fs constantsPath (generateConstants constants)
    let fs2 := writeFS fs1 functionsPath (generateFunctions functions)
    let fs3 := writeFS fs2 friendlyPath (generateFriendlyWrappers functions)
    let fs4 := writeFS fs3 indexPath generateIndex
    let fs5 := writeFS fs4 exportsPath (generateExportedFunctions functions)
    some fs5

/-! ## Lemmas and claim theorems -/

/-- the scan finds the first zero when given enough fuel. -/
theorem scanZero_finds (buf : List Nat) :
    ∀ (fuel i j : Nat), i ≤ j → buf.get? j = some 0 →
      (∀ k, k < j → i ≤ k → buf.get? k ≠ some 0) →
      j + 1 ≤ i + fuel → scanZero buf fuel i = some j := by
  intro fuel
  induction fuel with
  | zero => intro i j hij _ _ hf; omega
  | succ n ih =>
    intro i j hij hz hfirst hf
    by_cases hi : i = j
    · subst hi
      simp only [scanZero, hz]
    · have hlt : i < j := lt_of_le_of_ne hij hi
      have hne : buf.get? i ≠ some 0 := hfirst i hlt le_rfl
      have step : scanZero buf (n + 1) i = scanZero buf n (i + 1) := by
        cases hgi : buf.get? i with
        | none => simp only [scanZero, hgi]
        | some v =>
          cases v with
          | zero => exact absurd hgi hne
          | succ w => simp only [scanZero, hgi]
      rw [step]
      exact ih (i + 1) j hlt hz (fun k hk hik => hfirst k hk (by omega)) (by omega)

/-- the scan never returns when no zero byte lies at or after the start. -/
theorem scanZero_stuck (buf : List Nat) :
    ∀ (fuel i : Nat), (∀ j, i ≤ j → buf.get? j ≠ some 0) →
      scanZero buf fuel i = none := by
  intro fuel
  induction fuel with
  | zero => intro i _; rfl
  | succ n ih =>
    intro i hnz
    have hne : buf.get? i ≠ some 0 := hnz i le_rfl
    have step : scanZero buf (n + 1) i = scanZero buf n (i + 1) := by
      cases hgi : buf.get? i with
      | none => simp only [scanZero, hgi]
      | some v =>
        cases v with
        | zero => exact absurd hgi hne
        | succ w => simp only [scanZero, hgi]
    rw [step]
    exact ih (i + 1) (fun j hj => hnz j (by omega))

/-- Claim C10: for every pointer `ptr` such that the buffer holds a zero byte
at some index at or after `ptr`, `getString(ptr)` of helpers.ts terminates
(here: succeeds for every sufficient scan bound) and returns the decoding of
the bytes from `ptr` up to, excluding, the first such zero byte; when no
zero byte exists at or after `ptr` within the buffer, the scan never
terminates (returns `none` for every bound). -/
theorem helpersGetString_spec (buf : List Nat) (ptr : Nat) :
    (∀ j, ptr ≤ j → buf.get? j = some 0 →
      (∀ k, k < j → ptr ≤ k → buf.get? k ≠ some 0) →
      ∀ fuel, j + 1 ≤ ptr + fuel →
        helpersGetString buf fuel ptr = some ((buf.drop ptr).take (j - ptr))) ∧
    ((∀ j, j < buf.length → ptr ≤ j → buf.get? j ≠ some 0) →
      ∀ fuel, helpersGetString buf fuel ptr = none) := by
  constructor
  · intro j hij hz hfirst fuel hf
    unfold helpersGetString
    rw [scanZero_finds buf fuel ptr j hij hz hfirst hf]
    rfl
  · intro hnz fuel
    unfold helpersGetString
    rw [scanZero_stuck buf fuel ptr ?_]
    · rfl
    · intro j hj
      by_cases hlen : j < buf.length
      · exact hnz j hlen hj
      · intro hzj
        rw [List.get?_eq_none.mpr (by omega)] at hzj
        exact Option.noConfusion hzj

/-- Witness for C10 at the buffer `[72, 105, 0, 66]`: with the first zero at
index 2, the scan from 0 yields the first two bytes; from index 3 (no zero
at or after it) it never terminates. -/
theorem helpersGetString_spec_witness :
    helpersGetString [72, 105, 0, 66] 3 0 = some [72, 105] ∧
    helpersGetString [72, 105, 0, 66] 9 3 = none := by
  constructor
  · have h := (helpersGetString_spec [72, 105, 0, 66] 0).1 2 (by decide) (by decide)
      (by decide) 3 (by decide)
    simpa using h
  · exact (helpersGetString_spec [72, 105, 0, 66] 3).2 (by decide) 9

/-- reading a path another write targeted. -/
theorem writeFS_ne (g : FS) (p c q) (h : q ≠ p) : writeFS g p c q = g q := by
  unfold writeFS
  exact if_neg h

/-- reading the path a write targeted. -/
theorem writeFS_eq (g : FS) (p c) : writeFS g p c p = some c := by
  unfold writeFS
  exact if_pos rfl

/-- a write of the content a path already holds changes nothing. -/
theorem writeFS_self (g : FS) (p c) (h : g p = some c) : writeFS g p c = g := by
  funext q
  unfold writeFS
  by_cases hq : q = p
  · subst hq; rw [if_pos rfl, h]
  · rw [if_neg hq]

/-- Claim C8: the generator is deterministic and its run is idempotent:
a second run of `main` over the file system produced by a first run reads
the same header (no output path coincides with the input path), computes the
same artifact texts from it and the same static configuration table, and
rewrites each artifact with byte-identical content, leaving the file system
unchanged. -/
theorem mainFS_idempotent (fs fs2 : FS) (h : mainFS fs = some fs2) :
    mainFS fs2 = some fs2 := by
  unfold mainFS at h
  cases hh : fs headerPath with
  | none => rw [hh] at h; exact absurd h (by simp)
  | some header =>
    rw [hh] at h
    simp only [Option.some.injEq] at h
    subst h
    have hh2 :
        (writeFS (writeFS (writeFS (writeFS (writeFS fs constantsPath
            (generateConstants (parseConstants header))) functionsPath
            (generateFunctions (parseFunctions header))) friendlyPath
            (generateFriendlyWrappers (parseFunctions header))) indexPath
            generateIndex) exportsPath
            (generateExportedFunctions (parseFunctions header))) headerPath
          = some header := by
      rw [writeFS_ne _ _ _ _ (by decide), writeFS_ne _ _ _ _ (by decide),
        writeFS_ne _ _ _ _ (by decide), writeFS_ne _ _ _ _ (by decide),
        writeFS_ne _ _ _ _ (by decide), hh]
    unfold mainFS
    simp only [hh2]
    congr 1
    rw [writeFS_self, writeFS_self, writeFS_self, writeFS_self, writeFS_self]
    all_goals
      repeat
        first
        | rw [writeFS_eq]
        | rw [writeFS_ne _ _ _ _ (by decide)]

/-- a one-line header input for the idempotence witness. -/
def witnessFS : FS := fun p =>
  if p = headerPath then
    some "#define SE_SUN 0\next_def(double) swe_sidtime(double tjd_ut);\n"
  else none

/-- the file system after one generator run on the witness input. -/
def witnessFSOut : FS :=
  match mainFS witnessFS with
  | some g => g
  | none => fun _ => none

/-- Witness for C8: one run on a concrete one-line header succeeds, and a
second run over its output changes nothing. -/
theorem mainFS_idempotent_witness :
    mainFS witnessFS = some witnessFSOut ∧ mainFS witnessFSOut = some witnessFSOut := by
  have h1 : mainFS witnessFS = some witnessFSOut := rfl
  exact ⟨h1, mainFS_idempotent witnessFS witnessFSOut h1⟩

/-! ### Structure of the allocation prologue -/

/-- the allocation pointer of an event, if it is an allocation. -/
def evAllocPtr : WEvent → Option Nat
  | .alloc p _ => some p
  | .free _ => none

/-- the released pointer of an event, if it is a release. -/
def evFreePtr : WEvent → Option Nat
  | .free p => some p
  | .alloc _ _ => none

/-- recursion form of the output-allocation loop. -/
def allocOutputsR : List (String × OutputType) → WState → List ORead × WState
  | [], σ => ([], σ)
  | e :: rest, σ =>
    let r := allocOutputsR rest (mallocW (outSize e.2) σ).2
    (⟨e.1, e.2, (mallocW (outSize e.2) σ).1⟩ :: r.1, r.2)

/-- the fold of `allocOutputs` is the recursion `allocOutputsR`. -/
theorem allocOutputs_eq_R (outs : List (String × OutputType)) (σ : WState) :
    allocOutputs outs σ = allocOutputsR outs σ := by
  have go : ∀ (outs : List (String × OutputType)) (acc : List ORead) (σ : WState),
      List.foldl
        (fun (acc : List ORead × WState) e =>
          (acc.1 ++ [⟨e.1, e.2, (mallocW (outSize e.2) acc.2).1⟩],
           (mallocW (outSize e.2) acc.2).2))
        (acc, σ) outs
      = (acc ++ (allocOutputsR outs σ).1, (allocOutputsR outs σ).2) := by
    intro outs
    induction outs with
    | nil => intro acc σ; simp [allocOutputsR]
    | cons e rest ih =>
      intro acc σ
      simp only [List.foldl_cons, allocOutputsR]
      rw [ih]
      simp
  unfold allocOutputs
  rw [go]
  simp

/-- recursion form of the input-string allocation loop. -/
def allocInputStringsR : List String → (String → WVal) → WState →
    List (String × Nat) × WState
  | [], _, σ => ([], σ)
  | p :: rest, env, σ =>
    let r := allocInputStringsR rest env (allocStringW ((env p).asStr) σ).2
    ((p, (allocStringW ((env p).asStr) σ).1) :: r.1, r.2)

/-- the fold of `allocInputStrings` is the recursion `allocInputStringsR`. -/
theorem allocInputStrings_eq_R (names : List String) (env : String → WVal)
    (σ : WState) : allocInputStrings names env σ = allocInputStringsR names env σ := by
  have go : ∀ (names : List String) (acc : List (String × Nat)) (σ : WState),
      List.foldl
        (fun (acc : List (String × Nat) × WState) p =>
          (acc.1 ++ [(p, (allocStringW ((env p).asStr) acc.2).1)],
           (allocStringW ((env p).asStr) acc.2).2))
        (acc, σ) names
      = (acc ++ (allocInputStringsR names env σ).1, (allocInputStringsR names env σ).2) := by
    intro names
    induction names with
    | nil => intro acc σ; simp [allocInputStringsR]
    | cons p rest ih =>
      intro acc σ
      simp only [List.foldl_cons, allocInputStringsR]
      rw [ih]
      simp
  unfold allocInputStrings
  rw [go]
  simp

/-- the recorded output reads carry exactly the configured entries. -/
theorem allocOutputsR_tys (outs : List (String × OutputType)) :
    ∀ σ, ((allocOutputsR outs σ).1).map (fun o => (o.param, o.ty)) = outs := by
  induction outs with
  | nil => intro σ; simp [allocOutputsR]
  | cons e rest ih => intro σ; simp [allocOutputsR, ih]

/-- allocation events recorded by the output loop: one per output read, in
order, with its pointer. -/
theorem allocOutputsR_allocPtrs (outs : List (String × OutputType)) :
    ∀ σ, ((allocOutputsR outs σ).2).events.filterMap evAllocPtr
      = σ.events.filterMap evAllocPtr ++ ((allocOutputsR outs σ).1).map (fun o => o.ptr) := by
  induction outs with
  | nil => intro σ; simp [allocOutputsR]
  | cons e rest ih =>
    intro σ
    simp [allocOutputsR, ih, mallocW, List.filterMap_append, evAllocPtr]

/-- the output loop records no release events. -/
theorem allocOutputsR_freePtrs (outs : List (String × OutputType)) :
    ∀ σ, ((allocOutputsR outs σ).2).events.filterMap evFreePtr
      = σ.events.filterMap evFreePtr := by
  induction outs with
  | nil => intro σ; simp [allocOutputsR]
  | cons e rest ih =>
    intro σ
    simp [allocOutputsR, ih, mallocW, List.filterMap_append, evFreePtr]

/-- allocation events recorded by the input-string loop: one per string, in
order, with its pointer. -/
theorem allocInputStringsR_allocPtrs (names : List String) (env : String → WVal) :
    ∀ σ, ((allocInputStringsR names env σ).2).events.filterMap evAllocPtr
      = σ.events.filterMap evAllocPtr ++
        ((allocInputStringsR names env σ).1).map (fun e => e.2) := by
  induction names with
  | nil => intro σ; simp [allocInputStringsR]
  | cons p rest ih =>
    intro σ
    simp [allocInputStringsR, ih, allocStringW, mallocW, List.filterMap_append, evAllocPtr]

/-- the input-string loop records no release events. -/
theorem allocInputStringsR_freePtrs (names : List String) (env : String → WVal) :
    ∀ σ, ((allocInputStringsR names env σ).2).events.filterMap evFreePtr
      = σ.events.filterMap evFreePtr := by
  induction names with
  | nil => intro σ; simp [allocInputStringsR]
  | cons p rest ih =>
    intro σ
    simp [allocInputStringsR, ih, allocStringW, mallocW, List.filterMap_append, evFreePtr]

/-- the output reads of an invocation mirror the configured outputs. -/
theorem wOReads_tys (cfg : FunctionConfig) (env : String → WVal) (σ0 : WState) :
    (wOReads cfg env σ0).map (fun o => (o.param, o.ty)) = cfg.outputs := by
  unfold wOReads wAllocPhase
  rw [allocOutputs_eq_R]
  exact allocOutputsR_tys cfg.outputs σ0

/-- allocation events of the whole prologue: exactly the output-read
pointers followed by the input-string pointers. -/
theorem wPostState_allocPtrs (cfg : FunctionConfig) (env : String → WVal)
    (σ0 : WState) :
    (wPostState cfg env σ0).events.filterMap evAllocPtr
      = σ0.events.filterMap evAllocPtr ++
        ((wOReads cfg env σ0).map (fun o => o.ptr) ++
          (wSPtrs cfg env σ0).map (fun e => e.2)) := by
  unfold wPostState wOReads wSPtrs wAllocPhase
  rw [allocOutputs_eq_R, allocInputStrings_eq_R, allocInputStringsR_allocPtrs,
    allocOutputsR_allocPtrs]
  simp

/-- the prologue records no release events. -/
theorem wPostState_freePtrs (cfg : FunctionConfig) (env : String → WVal)
    (σ0 : WState) :
    (wPostState cfg env σ0).events.filterMap evFreePtr
      = σ0.events.filterMap evFreePtr := by
  unfold wPostState wAllocPhase
  rw [allocOutputs_eq_R, allocInputStrings_eq_R, allocInputStringsR_freePtrs,
    allocOutputsR_freePtrs]

/-- a successful result construction yields the full event trace and an `ok`
outcome. -/
theorem wBuildRes_shape (fuel : Nat) (fn : FunctionDecl) (cfg : FunctionConfig)
    (env : String → WVal) (native : Native) (σ0 : WState) (ev : List WEvent)
    (out : Except (List Int) RVal)
    (h : wBuildRes fuel fn cfg env native σ0 = some (ev, out)) :
    ev = wFinalEvents cfg env σ0 ∧ ∃ rv, out = Except.ok rv := by
  unfold wBuildRes at h
  rcases Option.map_eq_some'.mp h with ⟨rv, _, heq⟩
  rw [Prod.mk.injEq] at heq
  exact ⟨heq.1.symm, rv, heq.2.symm⟩

/-- every invocation that returns or raises produces the same event trace:
the prologue allocations followed by the `finally` releases. -/
theorem runWrapper_events (fuel : Nat) (fn : FunctionDecl) (cfg : FunctionConfig)
    (env : String → WVal) (native : Native) (σ0 : WState) (ev : List WEvent)
    (out : Except (List Int) RVal)
    (h : runWrapper fuel fn cfg env native σ0 = some (ev, out)) :
    ev = wFinalEvents cfg env σ0 := by
  unfold runWrapper at h
  split at h
  · split at h
    · split at h
      · split at h
        · exact absurd h (by simp)
        · rw [Option.some.injEq, Prod.mk.injEq] at h
          exact h.1.symm
      · exact (wBuildRes_shape _ _ _ _ _ _ _ _ h).1
    · exact (wBuildRes_shape _ _ _ _ _ _ _ _ h).1
  · exact (wBuildRes_shape _ _ _ _ _ _ _ _ h).1

/-! ### Claims C9, C1, C2, C7 -/

/-- Claim C9: a routine whose configuration sets a checking return mode but
declares no error-buffer output gets a wrapper with no negative-return check
at all: whatever the native return value (negative included), the invocation
never raises — every completed run carries a constructed result. -/
theorem checkless_wrapper_never_raises (fuel : Nat) (fn : FunctionDecl)
    (cfg : FunctionConfig) (env : String → WVal) (native : Native) (σ0 : WState)
    (herr : ∀ e ∈ cfg.outputs, e.2.isError = false) :
    ∀ ev out, runWrapper fuel fn cfg env native σ0 = some (ev, out) →
      ∃ rv, out = Except.ok rv := by
  intro ev out h
  have hfind : (wOReads cfg env σ0).find? (fun o => o.ty.isError) = none := by
    apply List.find?_eq_none.mpr
    intro o ho
    have hmem : (o.param, o.ty) ∈ cfg.outputs := by
      rw [← wOReads_tys cfg env σ0]
      exact List.mem_map_of_mem _ ho
    have := herr _ hmem
    simpa using this
  unfold runWrapper at h
  split at h
  · rw [hfind] at h
    exact (wBuildRes_shape _ _ _ _ _ _ _ _ h).2
  · exact (wBuildRes_shape _ _ _ _ _ _ _ _ h).2

/-- the concrete declaration of `swe_date_conversion` (as extracted from the
header: five value parameters and the `tjd` output pointer). -/
def dateConversionDecl : FunctionDecl :=
  { returnType := "int", name := "swe_date_conversion",
    params := [⟨"int", "y", false⟩, ⟨"int", "m", false⟩, ⟨"int", "d", false⟩,
               ⟨"double", "utime", false⟩, ⟨"char", "c", false⟩,
               ⟨"double", "tjd", true⟩] }

/-- the table's configuration of `swe_date_conversion`. -/
def dateConversionCfg : FunctionConfig :=
  (lookupConfig "swe_date_conversion").getD {}

/-- Witness for C9 at `swe_date_conversion`: its configuration checks
negatives but has no error buffer, and a native return of `-1` still
produces a constructed result. -/
theorem checkless_wrapper_never_raises_witness :
    (∀ e ∈ dateConversionCfg.outputs, e.2.isError = false) ∧
    ∃ rv, (Except.ok (RVal.numv 5) : Except (List Int) RVal) = Except.ok rv := by
  refine ⟨by decide, ?_⟩
  exact checkless_wrapper_never_raises 10 dateConversionDecl dateConversionCfg
    (fun _ => WVal.num 3) (fun _ _ => (-1, fun _ => 5)) ⟨0, fun _ => 7, []⟩
    (by decide) [WEvent.alloc 0 8, WEvent.free 0] (Except.ok (RVal.numv 5)) rfl

/-- Counterexample to C1 as stated: `swe_date_conversion` is configured with
`check-negative`, yet its wrapper raises nothing on a native return of `-1`
— it builds the normal result from the `tjd` buffer instead. -/
theorem checkNegative_without_errorBuffer_no_raise :
    dateConversionCfg.returnType = some RetMode.checkNegative ∧
    dateConversionCfg.outputs.all (fun e => !e.2.isError) = true ∧
    runWrapper 10 dateConversionDecl dateConversionCfg (fun _ => WVal.num 3)
        (fun _ _ => (-1, fun _ => 5)) ⟨0, fun _ => 7, []⟩
      = some ([WEvent.alloc 0 8, WEvent.free 0], Except.ok (RVal.numv 5)) :=
  ⟨rfl, rfl, rfl⟩

/-- Claim C1 (amended): for every routine whose configuration sets
`check-negative` or `check-error` and whose outputs carry an error-buffer
descriptor, a negative native return makes the wrapper read the error buffer
as a decoded string and raise a failure carrying that message — or the fixed
fallback message when the buffer is empty — instead of constructing any
result. -/
theorem errorPath_raises (fuel : Nat) (fn : FunctionDecl) (cfg : FunctionConfig)
    (env : String → WVal) (native : Native) (σ0 : WState) (er : ORead)
    (bs : List Int)
    (hmode : cfg.returnType = some RetMode.checkNegative ∨
      cfg.returnType = some RetMode.checkError)
    (herr : (wOReads cfg env σ0).find? (fun o => o.ty.isError) = some er)
    (hret : (wPostCall fn cfg env native σ0).1 < 0)
    (hbuf : getStringW (wPostCall fn cfg env native σ0).2 fuel er.ptr = some bs) :
    runWrapper fuel fn cfg env native σ0
      = some (wFinalEvents cfg env σ0,
              Except.error (if bs.isEmpty then fallbackErrMsg else bs)) := by
  unfold runWrapper
  have hm : cfg.returnType.getD .number = .checkNegative ∨
      cfg.returnType.getD .number = .checkError := by
    rcases hmode with h | h <;> rw [h] <;> simp
  rw [if_pos hm]
  simp only [herr, if_pos hret, hbuf]

/-- the concrete declaration of `swe_time_equ` (from the header). -/
def timeEquDecl : FunctionDecl :=
  { returnType := "int32", name := "swe_time_equ",
    params := [⟨"double", "tjd", false⟩, ⟨"double", "te", true⟩,
               ⟨"char", "serr", true⟩] }

/-- the table's configuration of `swe_time_equ`. -/
def timeEquCfg : FunctionConfig := (lookupConfig "swe_time_equ").getD {}

/-- Witness for C1 (amended) at `swe_time_equ`: with a populated error
buffer the raised message is the buffer's contents; with an empty buffer it
is the fixed fallback message. -/
theorem errorPath_raises_witness :
    runWrapper 3 timeEquDecl timeEquCfg (fun _ => WVal.num 2)
        (fun _ _ => (-1, fun a => if a = 8 then 69 else 0)) ⟨0, fun _ => 1, []⟩
      = some (wFinalEvents timeEquCfg (fun _ => WVal.num 2) ⟨0, fun _ => 1, []⟩,
              Except.error [69]) ∧
    runWrapper 3 timeEquDecl timeEquCfg (fun _ => WVal.num 2)
        (fun _ _ => (-1, fun _ => 0)) ⟨0, fun _ => 1, []⟩
      = some (wFinalEvents timeEquCfg (fun _ => WVal.num 2) ⟨0, fun _ => 1, []⟩,
              Except.error fallbackErrMsg) := by
  constructor
  · have h := errorPath_raises 3 timeEquDecl timeEquCfg (fun _ => WVal.num 2)
      (fun _ _ => (-1, fun a => if a = 8 then 69 else 0)) ⟨0, fun _ => 1, []⟩
      ⟨"serr", .errorBuf 256, 8⟩ [69] (Or.inl rfl) rfl (by decide) rfl
    simpa using h
  · have h := errorPath_raises 3 timeEquDecl timeEquCfg (fun _ => WVal.num 2)
      (fun _ _ => (-1, fun _ => 0)) ⟨0, fun _ => 1, []⟩
      ⟨"serr", .errorBuf 256, 8⟩ [] (Or.inl rfl) rfl (by decide) rfl
    simpa using h

/-- Claim C2: on every invocation that returns or raises, the list of
allocated pointers equals the list of released pointers (hence the
multisets agree), and a wrapper with no configured outputs and no input
strings performs no allocation and no release. -/
theorem alloc_free_balance (fuel : Nat) (fn : FunctionDecl) (cfg : FunctionConfig)
    (env : String → WVal) (native : Native) (σ0 : WState)
    (hσ : σ0.events = []) (ev : List WEvent) (out : Except (List Int) RVal)
    (h : runWrapper fuel fn cfg env native σ0 = some (ev, out)) :
    ev.filterMap evAllocPtr = ev.filterMap evFreePtr ∧
    (cfg.outputs = [] → cfg.inputStrings = [] → ev = []) := by
  have hev : ev = wFinalEvents cfg env σ0 :=
    runWrapper_events fuel fn cfg env native σ0 ev out h
  subst hev
  constructor
  · have h3 : ∀ l : List Nat, (l.map WEvent.free).filterMap evAllocPtr = [] := by
      intro l; induction l with
      | nil => rfl
      | cons x xs ih => simp [evAllocPtr, ih]
    have h4 : ∀ l : List Nat, (l.map WEvent.free).filterMap evFreePtr = l := by
      intro l; induction l with
      | nil => rfl
      | cons x xs ih => simp [evFreePtr, ih]
    unfold wFinalEvents
    rw [List.filterMap_append, List.filterMap_append, wPostState_allocPtrs,
      wPostState_freePtrs, h3, h4, hσ]
    simp [wFrees]
  · intro ho hi
    unfold wFinalEvents wFrees wOReads wSPtrs wPostState wAllocPhase
    rw [ho, hi]
    simp [allocOutputs, allocInputStrings, hσ]

/-- Witness for C2 at `swe_time_equ` (two allocations, both released, on the
error path) and at `swe_sidtime` (no allocations, empty trace). -/
theorem alloc_free_balance_witness :
    ((wFinalEvents timeEquCfg (fun _ => WVal.num 2) ⟨0, fun _ => 1, []⟩).filterMap evAllocPtr
      = (wFinalEvents timeEquCfg (fun _ => WVal.num 2)
          ⟨0, fun _ => 1, []⟩).filterMap evFreePtr) ∧
    (([] : List WEvent) = []) := by
  constructor
  · have h : runWrapper 3 timeEquDecl timeEquCfg (fun _ => WVal.num 2)
        (fun _ _ => (-1, fun a => if a = 8 then 69 else 0)) ⟨0, fun _ => 1, []⟩
        = some (wFinalEvents timeEquCfg (fun _ => WVal.num 2) ⟨0, fun _ => 1, []⟩,
                Except.error [69]) := rfl
    exact (alloc_free_balance 3 timeEquDecl timeEquCfg (fun _ => WVal.num 2)
      (fun _ _ => (-1, fun a => if a = 8 then 69 else 0)) ⟨0, fun _ => 1, []⟩ rfl
      _ _ h).1
  · exact (alloc_free_balance 3
      { returnType := "double", name := "swe_sidtime",
        params := [⟨"double", "tjd_ut", false⟩] }
      ((lookupConfig "swe_sidtime").getD {}) (fun _ => WVal.num 2)
      (fun _ _ => (4, fun _ => 0)) ⟨0, fun _ => 1, []⟩ rfl []
      (Except.ok (RVal.numv 4)) rfl).2 rfl rfl

/-- Claim C7: for a routine configured with the `HouseResult` shape (cusp
buffer of 13 doubles allocated first, `ascmc` buffer of 10 doubles second),
the wrapper exposes the 13-element cusp buffer contents `b` as the
12-element sequence `b.drop 1`, beginning with the buffer's second element
— the conventionally unused first slot is dropped. -/
theorem houseResult_cusp_trimming (fuel : Nat) (fn : FunctionDecl)
    (cfg : FunctionConfig) (env : String → WVal) (native : Native) (σ0 : WState)
    (b : List Int)
    (hres : cfg.resultType = some "HouseResult")
    (hmode : cfg.returnType = some RetMode.number)
    (houts : cfg.outputs = [("cusps", OutputType.float64Arr 13 none),
                            ("ascmc", OutputType.float64Arr 10 none)])
    (hb : getFloat64Array (wPostCall fn cfg env native σ0).2 σ0.next 13 = b) :
    runWrapper fuel fn cfg env native σ0
      = some (wFinalEvents cfg env σ0, Except.ok (RVal.obj
          (("cusps", RVal.arr (b.drop 1)) ::
            ascmcFields
              (getFloat64Array (wPostCall fn cfg env native σ0).2 (σ0.next + 104) 10)))) ∧
    (b.drop 1).length = 12 ∧ (b.drop 1).head? = b.get? 1 := by
  have hlen : b.length = 13 := by
    rw [← hb]; simp [getFloat64Array]
  have horeads : wOReads cfg env σ0
      = [⟨"cusps", OutputType.float64Arr 13 none, σ0.next⟩,
         ⟨"ascmc", OutputType.float64Arr 10 none, σ0.next + 104⟩] := by
    unfold wOReads wAllocPhase
    rw [houts, allocOutputs_eq_R]
    simp [allocOutputsR, mallocW, outSize]
  refine ⟨?_, ?_, ?_⟩
  · have hm2 : cfg.returnType.getD .number = RetMode.number := by rw [hmode]; rfl
    unfold runWrapper
    rw [if_neg (by rw [hm2]; simp)]
    unfold wBuildRes
    rw [hm2, horeads]
    simp [buildReturnValueSem, hres, hb, OutputType.isError]
  · simp [hlen]
  · cases b with
    | nil => simp at hlen
    | cons x xs => cases xs <;> simp

/-- the concrete declaration of `swe_houses` (from the header). -/
def housesDecl : FunctionDecl :=
  { returnType := "int", name := "swe_houses",
    params := [⟨"double", "tjd_ut", false⟩, ⟨"double", "geolat", false⟩,
               ⟨"double", "geolon", false⟩, ⟨"int", "hsys", false⟩,
               ⟨"double", "cusps", true⟩, ⟨"double", "ascmc", true⟩] }

/-- the table's configuration of `swe_houses`. -/
def housesCfg : FunctionConfig := (lookupConfig "swe_houses").getD {}

/-- the claim's 13-element cusp buffer `[0, 15.0, 45.0, …]`, its unused first
slot zero. -/
def houseBuf : List Int := [0, 15, 45, 0, 0, 0, 0, 0, 0, 0, 0, 0, 0]

/-- a native oracle filling the cusp buffer with `houseBuf`. -/
def housesNative : Native :=
  fun _ _ => (0, fun a => if a = 8 then 15 else if a = 16 then 45 else 0)

/-- Witness for C7 at `swe_houses` on the buffer `[0, 15, 45, 0, …]`: the
published cusp sequence is the buffer without its first slot — twelve
elements beginning with 15. -/
theorem houseResult_cusp_trimming_witness :
    (runWrapper 5 housesDecl housesCfg (fun _ => WVal.num 1) housesNative
        ⟨0, fun _ => 0, []⟩
      = some (wFinalEvents housesCfg (fun _ => WVal.num 1) ⟨0, fun _ => 0, []⟩,
          Except.ok (RVal.obj (("cusps", RVal.arr (houseBuf.drop 1)) ::
            ascmcFields (getFloat64Array
              (wPostCall housesDecl housesCfg (fun _ => WVal.num 1) housesNative
                ⟨0, fun _ => 0, []⟩).2 104 10))))) ∧
    (houseBuf.drop 1).length = 12 ∧ (houseBuf.drop 1).head? = houseBuf.get? 1 :=
  houseResult_cusp_trimming 5 housesDecl housesCfg (fun _ => WVal.num 1)
    housesNative ⟨0, fun _ => 0, []⟩ houseBuf rfl rfl rfl rfl

/-! ### Claim C5: the dependency scanner against the token characterization -/

/-- an upper-snake continuation character is a word character. -/
theorem snake_word {c : Char} (h : isSnake c = true) : isWordChar c = true := by
  unfold isSnake at h
  unfold isWordChar
  simp only [Bool.or_eq_true, decide_eq_true_eq] at h ⊢
  tauto

/-- an upper-case letter is a word character. -/
theorem upper_word {c : Char} (h : isUpperC c = true) : isWordChar c = true := by
  unfold isWordChar
  simp only [decide_eq_true_eq]
  exact Or.inl h

/-- every character of a `takeWhile` satisfies the predicate. -/
theorem mem_takeWhile_sat (p : Char → Bool) :
    ∀ (l : List Char) (a : Char), a ∈ l.takeWhile p → p a = true := by
  intro l
  induction l with
  | nil => intro a ha; simp [List.takeWhile] at ha
  | cons c rest ih =>
    intro a ha
    rw [List.takeWhile_cons] at ha
    by_cases hc : p c = true
    · rw [if_pos hc] at ha
      rcases List.mem_cons.mp ha with h | h
      · rw [h]; exact hc
      · exact ih a h
    · rw [if_neg hc] at ha
      simp at ha

/-- dropping the taken prefix is `dropWhile`. -/
theorem drop_takeWhile_len (p : Char → Bool) :
    ∀ l : List Char, l.drop (l.takeWhile p).length = l.dropWhile p := by
  intro l
  induction l with
  | nil => rfl
  | cons c rest ih =>
    rw [List.takeWhile_cons, List.dropWhile_cons]
    by_cases hc : p c = true
    · rw [if_pos hc, if_pos hc, List.length_cons, List.drop_succ_cons, ih]
    · rw [if_neg hc, if_neg hc]
      rfl

/-- the head of `dropWhile` fails the predicate. -/
theorem head_dropWhile_not (p : Char → Bool) :
    ∀ (l : List Char) (a : Char), (l.dropWhile p).head? = some a → p a = false := by
  intro l
  induction l with
  | nil => intro a ha; simp [List.dropWhile] at ha
  | cons c rest ih =>
    intro a ha
    rw [List.dropWhile_cons] at ha
    by_cases hc : p c = true
    · rw [if_pos hc] at ha
      exact ih a ha
    · rw [if_neg hc] at ha
      simp only [List.head?_cons, Option.some.injEq] at ha
      rw [← ha]
      exact Bool.not_eq_true _ ▸ (by simpa using hc)

/-- `takeWhile` of a satisfied prefix followed by a failing head is the
prefix. -/
theorem takeWhile_eq_prefix (p : Char → Bool) :
    ∀ (t r : List Char), (∀ a ∈ t, p a = true) →
      (∀ a, r.head? = some a → p a = false) → (t ++ r).takeWhile p = t := by
  intro t
  induction t with
  | nil =>
    intro r _ hr
    cases r with
    | nil => rfl
    | cons a r2 =>
      rw [List.nil_append, List.takeWhile_cons, if_neg]
      simp [hr a rfl]
  | cons c t2 ih =>
    intro r ht hr
    rw [List.cons_append, List.takeWhile_cons, if_pos (ht c (List.mem_cons_self c t2))]
    rw [ih r (fun a ha => ht a (List.mem_cons_of_mem c ha)) hr]

/-- `takeWhile` walks through a satisfied prefix. -/
theorem takeWhile_append_all (p : Char → Bool) :
    ∀ (t r : List Char), (∀ a ∈ t, p a = true) →
      (t ++ r).takeWhile p = t ++ r.takeWhile p := by
  intro t
  induction t with
  | nil => intro r _; rfl
  | cons c t2 ih =>
    intro r ht
    rw [List.cons_append, List.takeWhile_cons, if_pos (ht c (List.mem_cons_self c t2))]
    rw [ih r (fun a ha => ht a (List.mem_cons_of_mem c ha))]
    rfl

/-- `dropWhile` is the identity when the head already fails. -/
theorem dropWhile_head_not (p : Char → Bool) (l : List Char)
    (h : ∀ a, l.head? = some a → p a = false) : l.dropWhile p = l := by
  cases l with
  | nil => rfl
  | cons c rest =>
    rw [List.dropWhile_cons, if_neg]
    simp [h c rfl]

/-- `wordRuns` ignores the fuel once it covers the input length. -/
theorem wordRuns_fuel : ∀ n n' : Nat, ∀ cs : List Char, cs.length ≤ n → cs.length ≤ n' →
    wordRuns n cs = wordRuns n' cs := by
  intro n
  induction n with
  | zero =>
    intro n' cs hn _
    have h0 : cs = [] := List.length_eq_zero.mp (Nat.le_zero.mp hn)
    subst h0
    cases n' <;> rfl
  | succ m ih =>
    intro n' cs hn hn'
    cases cs with
    | nil => cases n' <;> rfl
    | cons c rest =>
      cases n' with
      | zero => simp at hn'
      | succ k =>
        have hrm : rest.length ≤ m := by simp only [List.length_cons] at hn; omega
        have hrk : rest.length ≤ k := by simp only [List.length_cons] at hn'; omega
        rw [wordRuns, wordRuns]
        by_cases hw : isWordChar c = true
        · rw [if_pos hw, if_pos hw]
          have hdl : (rest.drop (rest.takeWhile isWordChar).length).length ≤ rest.length := by
            rw [List.length_drop]; omega
          rw [ih k _ (le_trans hdl hrm) (le_trans hdl hrk)]
        · rw [if_neg hw, if_neg hw, ih k rest hrm hrk]

/-- the scanner `findDeps` computes exactly the accepted maximal word runs: in
boundary state (`true`) those of the whole input, otherwise those after the
word run the scanner stands inside. -/
theorem findDeps_eq_aux : ∀ n : Nat, ∀ cs : List Char, cs.length ≤ n →
    (findDeps n cs true = ((wordRuns n cs).filter isDepRun).map String.mk) ∧
    (findDeps n cs false =
      ((wordRuns n (cs.dropWhile isWordChar)).filter isDepRun).map String.mk) := by
  intro n
  induction n with
  | zero =>
    intro cs hcs
    have h0 : cs = [] := List.length_eq_zero.mp (Nat.le_zero.mp hcs)
    subst h0
    refine ⟨?_, ?_⟩ <;> simp [findDeps, wordRuns]
  | succ m ih =>
    intro cs hcs
    cases cs with
    | nil => refine ⟨?_, ?_⟩ <;> simp [findDeps, wordRuns]
    | cons c rest =>
      have hrl : rest.length ≤ m := by
        simp only [List.length_cons] at hcs; omega
      constructor
      · -- boundary state
        by_cases hU : isUpperC c = true
        · -- upper-case head: a candidate starts here
          have hw : isWordChar c = true := upper_word hU
          have hsplit : rest.takeWhile isSnake ++ rest.dropWhile isSnake = rest :=
            List.takeWhile_append_dropWhile isSnake rest
          have hrunword : ∀ a ∈ rest.takeWhile isSnake, isWordChar a = true :=
            fun a ha => snake_word (mem_takeWhile_sat isSnake rest a ha)
          have hafter : rest.drop (rest.takeWhile isSnake).length = rest.dropWhile isSnake :=
            drop_takeWhile_len isSnake rest
          by_cases hS : (rest.takeWhile isSnake ≠ [] ∧
              ((rest.drop (rest.takeWhile isSnake).length).head?.all
                (fun d => ¬ isWordChar d)) = true)
          · -- the candidate is accepted
            have hne := hS.1
            have hhd : ∀ a, (rest.dropWhile isSnake).head? = some a → isWordChar a = false := by
              intro a ha
              have := hS.2
              rw [hafter, ha] at this
              simpa using this
            have htw : rest.takeWhile isWordChar = rest.takeWhile isSnake := by
              conv_lhs => rw [← hsplit]
              exact takeWhile_eq_prefix isWordChar _ _ hrunword hhd
            have hdep : isDepRun (c :: rest.takeWhile isSnake) = true := by
              unfold isDepRun
              simp only [decide_eq_true_eq, Bool.and_eq_true]
              refine ⟨hU, ?_, ?_⟩
              · simpa using hne
              · rw [List.all_eq_true]
                intro a ha
                exact mem_takeWhile_sat isSnake rest a ha
            have hdw : (rest.dropWhile isSnake).dropWhile isWordChar =
                rest.dropWhile isSnake := dropWhile_head_not isWordChar _ hhd
            have hlen2 : (rest.dropWhile isSnake).length ≤ m := by
              have := (List.dropWhile_sublist (l := rest) isSnake).length_le
              omega
            rw [findDeps]
            rw [if_pos ⟨rfl, hU⟩, if_pos hS, hafter]
            rw [(ih (rest.dropWhile isSnake) hlen2).2, hdw]
            rw [wordRuns, if_pos hw, htw, hafter]
            rw [List.filter_cons, if_pos hdep, List.map_cons]
          · -- the candidate is rejected: the whole run is not a dependency
            rw [findDeps]
            rw [if_pos ⟨rfl, hU⟩, if_neg hS]
            have harg : (¬ isWordChar c : Bool) = false := by simp [hw]
            rw [harg, (ih rest hrl).2]
            rw [wordRuns, if_pos hw]
            have hdep : isDepRun (c :: rest.takeWhile isWordChar) = false := by
              by_cases hruns : rest.takeWhile isSnake = []
              · -- immediately broken run
                cases hrest : rest with
                | nil =>
                  subst hrest
                  unfold isDepRun
                  simp
                | cons d rest2 =>
                  subst hrest
                  rw [List.takeWhile_cons] at hruns
                  by_cases hd : isSnake d = true
                  · rw [if_pos hd] at hruns; simp at hruns
                  · by_cases hdw2 : isWordChar d = true
                    · rw [List.takeWhile_cons, if_pos hdw2]
                      unfold isDepRun
                      simp only [List.all_cons, Bool.and_eq_true, decide_eq_true_eq]
                      simp [hd]
                    · rw [List.takeWhile_cons, if_neg (by simp [hdw2])]
                      unfold isDepRun
                      simp
              · -- run continues with a word character after the snake part
                have hhd2 : ∃ d, (rest.dropWhile isSnake).head? = some d ∧
                    isWordChar d = true := by
                  rcases hd3 : (rest.drop (rest.takeWhile isSnake).length).head? with _ | d
                  · exfalso
                    exact hS ⟨hruns, by rw [hd3]; rfl⟩
                  · refine ⟨d, by rw [← hafter, hd3], ?_⟩
                    by_contra hdn
                    refine hS ⟨hruns, ?_⟩
                    rw [hd3]
                    simp only [Option.all_some, decide_eq_true_eq]
                    simp only [Bool.not_eq_true] at hdn
                    simp [hdn]
                rcases hhd2 with ⟨d, hd1, hd2⟩
                have hsn : isSnake d = false := head_dropWhile_not isSnake rest d hd1
                have htw2 : rest.takeWhile isWordChar =
                    rest.takeWhile isSnake ++ (rest.dropWhile isSnake).takeWhile isWordChar := by
                  conv_lhs => rw [← hsplit]
                  exact takeWhile_append_all isWordChar _ _ hrunword
                have hdmem : d ∈ rest.takeWhile isWordChar := by
                  rw [htw2]
                  refine List.mem_append_right _ ?_
                  cases hdrop : rest.dropWhile isSnake with
                  | nil => rw [hdrop] at hd1; simp at hd1
                  | cons e tail =>
                    rw [hdrop] at hd1
                    simp only [List.head?_cons, Option.some.injEq] at hd1
                    subst hd1
                    rw [List.takeWhile_cons, if_pos hd2]
                    exact List.mem_cons_self _ _
                unfold isDepRun
                apply decide_eq_false
                intro hcontr
                have hall := hcontr.2.2
                rw [List.all_eq_true] at hall
                have hda := hall d hdmem
                rw [hsn] at hda
                exact Bool.false_ne_true hda
            rw [List.filter_cons, if_neg (by simp [hdep]), drop_takeWhile_len]
        · -- head is not upper case: no candidate starts here
          rw [findDeps]
          rw [if_neg (fun hcontr => hU hcontr.2)]
          by_cases hw : isWordChar c = true
          · have harg : (¬ isWordChar c : Bool) = false := by simp [hw]
            rw [harg, (ih rest hrl).2]
            rw [wordRuns, if_pos hw]
            have hdep : isDepRun (c :: rest.takeWhile isWordChar) = false := by
              unfold isDepRun
              simp [hU]
            rw [List.filter_cons, if_neg (by simp [hdep]), drop_takeWhile_len]
          · have harg : (¬ isWordChar c : Bool) = true := by simp [hw]
            rw [harg, (ih rest hrl).1]
            rw [wordRuns, if_neg (by simp [hw])]
      · -- interior state: skip the rest of the current run first
        rw [findDeps]
        rw [if_neg (fun hcontr => by exact absurd hcontr.1 (by simp))]
        by_cases hw : isWordChar c = true
        · have harg : (¬ isWordChar c : Bool) = false := by simp [hw]
          rw [harg, (ih rest hrl).2]
          rw [List.dropWhile_cons, if_pos hw]
          have hdwl : (rest.dropWhile isWordChar).length ≤ m := by
            have := (List.dropWhile_sublist (l := rest) isWordChar).length_le
            omega
          rw [wordRuns_fuel m (m + 1) _ hdwl (le_trans hdwl (Nat.le_succ m))]
        · have harg : (¬ isWordChar c : Bool) = true := by simp [hw]
          rw [harg, (ih rest hrl).1]
          rw [List.dropWhile_cons, if_neg (by simp [hw])]
          rw [wordRuns, if_neg (by simp [hw])]

/-- `findDependencies` is the accepted-word-run characterization. -/
theorem findDependencies_eq_upperTokens (value : String) :
    findDependencies value = upperTokens value :=
  (findDeps_eq_aux value.data.length value.data le_rfl).1

/-- every constant accepted by `parseConstantLine` records exactly
`findDependencies` of its stored value. -/
theorem parseConstantLine_deps (line : String) (c : Constant)
    (h : parseConstantLine line = some c) :
    c.dependencies = findDependencies c.value := by
  simp only [parseConstantLine] at h
  repeat' split at h
  all_goals first
    | (rw [Option.some.injEq] at h
       rw [← h])
    | exact absurd h (by simp)

/-- C5 (counterexample): on the definition `#define SE_A (B | SE_A)` the
extractor records `["SE_A"]` — it keeps the constant's own name and drops the
single-letter symbol `B` — while the symbol-shaped tokens of the value minus
the own name are `["B"]`. -/
theorem findDependencies_not_spec_tokens :
    parseConstants "#define SE_A (B | SE_A)" =
      [{ name := "SE_A", value := "(B | SE_A)", comment := none,
         dependencies := ["SE_A"] }] ∧
    specSymbolDeps "(B | SE_A)" "SE_A" = ["B"] :=
  ⟨rfl, rfl⟩

/-- C5 (amended): for every constant produced by the extractor, the recorded
`dependencies` are exactly the maximal word runs of its value expression that
match `[A-Z][A-Z0-9_]+` exactly (length at least two, in document order, with
duplicates kept, and without excluding the constant's own name). -/
theorem constant_dependencies_characterization (header : String) :
    ∀ c ∈ parseConstants header, c.dependencies = upperTokens c.value := by
  intro c hc
  unfold parseConstants at hc
  rcases List.mem_filterMap.mp hc with ⟨line, _, hline⟩
  rw [parseConstantLine_deps line c hline]
  exact findDependencies_eq_upperTokens c.value

/-- Witness for C5: the characterization applied to the constant parsed from
a concrete one-line header. -/
theorem constant_dependencies_characterization_witness :
    ({ name := "SE_A", value := "(B | SE_A)", comment := none,
       dependencies := ["SE_A"] } : Constant).dependencies =
      upperTokens
        ({ name := "SE_A", value := "(B | SE_A)", comment := none,
           dependencies := ["SE_A"] } : Constant).value :=
  constant_dependencies_characterization "#define SE_A (B | SE_A)" _ (by decide)

/-! ### Claim C6: parameter-list splitting -/

/-- the per-piece behaviour of the parameter loop of `parseParams`, with the
positional index of the synthetic name made explicit: one trimmed piece
either yields no parameter or exactly one. -/
def paramFromPiece (k : Nat) (piece : String) : Option FunctionParam :=
  if piece = "" then none
  else
    let cleaned := stripConstQual piece.data
    let isPtr := cleaned.contains '*'
    let cleaned2 := removeStars cleaned.length cleaned
    let parts := (wsWords cleaned2.length cleaned2).map String.mk
    if parts.length ≥ 2 then
      some { type := joinSep " " parts.dropLast,
             name := (parts.getLast?).getD "", isPointer := isPtr }
    else if parts.length = 1 then
      some { type := parts.headD "", name := "arg" ++ toString k, isPointer := isPtr }
    else none

/-- the specification-side reading of the parameter loop: process the pieces
left to right, counting the parameters emitted so far for the synthetic
positional names. -/
def processPieces : List String → Nat → List FunctionParam
  | [], _ => []
  | p :: ps, k =>
    match paramFromPiece k p with
    | none => processPieces ps k
    | some fp => fp :: processPieces ps (k + 1)

/-- one loop step appends the piece's parameter, if any. -/
theorem paramStep_eq (acc : List FunctionParam) (p : String) :
    paramStep acc p = acc ++ (paramFromPiece acc.length p).toList := by
  unfold paramStep paramFromPiece
  by_cases hp : p = ""
  · rw [if_pos hp, if_pos hp]
    simp
  · rw [if_neg hp, if_neg hp]
    simp only []
    split_ifs <;> simp

/-- the parameter fold is `processPieces` started at the accumulator's
length. -/
theorem foldl_paramStep_eq : ∀ (pieces : List String) (acc : List FunctionParam),
    pieces.foldl paramStep acc = acc ++ processPieces pieces acc.length := by
  intro pieces
  induction pieces with
  | nil => intro acc; simp [processPieces]
  | cons p ps ih =>
    intro acc
    rw [List.foldl_cons, paramStep_eq, ih]
    cases hfp : paramFromPiece acc.length p with
    | none => simp [processPieces, hfp]
    | some fp => simp [processPieces, hfp, List.append_assoc]

/-- the star-removal pass emits no `*`. -/
theorem star_not_mem_removeStars : ∀ (fuel : Nat) (cs : List Char),
    ('*' : Char) ∉ removeStars fuel cs := by
  intro fuel
  induction fuel with
  | zero => intro cs; simp [removeStars]
  | succ m ih =>
    intro cs
    cases cs with
    | nil => simp [removeStars]
    | cons c rest =>
      simp only [removeStars]
      split_ifs with h1 h2 h3
      · intro hmem
        rcases List.mem_cons.mp hmem with h | h
        · exact absurd h (by decide)
        · exact ih _ h
      · intro hmem
        rcases List.mem_cons.mp hmem with h | h
        · exact absurd h (by decide)
        · exact ih _ h
      · intro hmem
        rcases List.mem_cons.mp hmem with h | h
        · exact h1 h.symm
        · rcases List.mem_append.mp h with h4 | h4
          · have := mem_takeWhile_sat isWs _ _ h4
            exact absurd this (by decide)
          · exact ih _ h4
      · intro hmem
        rcases List.mem_cons.mp hmem with h | h
        · exact h1 h.symm
        · exact ih _ h

/-- every character of a word of `wsWords` comes from the input. -/
theorem mem_wsWords_sub : ∀ (fuel : Nat) (cs w : List Char) (ch : Char),
    w ∈ wsWords fuel cs → ch ∈ w → ch ∈ cs := by
  intro fuel
  induction fuel with
  | zero => intro cs w ch hw; simp [wsWords] at hw
  | succ m ih =>
    intro cs w ch hw hch
    cases cs with
    | nil => simp [wsWords] at hw
    | cons c rest =>
      simp only [wsWords] at hw
      split_ifs at hw with h1
      · exact List.mem_cons_of_mem c (ih rest w ch hw hch)
      · rcases List.mem_cons.mp hw with h | h
        · rw [h] at hch
          rcases List.mem_cons.mp hch with h2 | h2
          · rw [h2]; exact List.mem_cons_self c rest
          · exact List.mem_cons_of_mem c ((List.takeWhile_sublist _).subset h2)
        · exact List.mem_cons_of_mem c
            ((List.drop_subset _ rest) (ih _ w ch h hch))

/-- a character of a separator-join comes from the separator or one of the
pieces. -/
theorem mem_joinSep (sep : String) : ∀ (l : List String) (ch : Char),
    ch ∈ (joinSep sep l).data → ch ∈ sep.data ∨ ∃ w ∈ l, ch ∈ w.data := by
  have haux : ∀ (ws : List String) (acc : String) (ch : Char),
      ch ∈ (ws.foldl (fun a x => a ++ sep ++ x) acc).data →
        ch ∈ acc.data ∨ ch ∈ sep.data ∨ ∃ w ∈ ws, ch ∈ w.data := by
    intro ws
    induction ws with
    | nil => intro acc ch h; exact Or.inl h
    | cons w ws2 ih =>
      intro acc ch h
      rw [List.foldl_cons] at h
      rcases ih _ ch h with h2 | h2 | h2
      · rw [String.data_append, String.data_append] at h2
        rcases List.mem_append.mp h2 with h3 | h3
        · rcases List.mem_append.mp h3 with h4 | h4
          · exact Or.inl h4
          · exact Or.inr (Or.inl h4)
        · exact Or.inr (Or.inr ⟨w, List.mem_cons_self w ws2, h3⟩)
      · exact Or.inr (Or.inl h2)
      · rcases h2 with ⟨v, hv, hchv⟩
        exact Or.inr (Or.inr ⟨v, List.mem_cons_of_mem w hv, hchv⟩)
  intro l ch h
  cases l with
  | nil => simp [joinSep] at h
  | cons w ws =>
    rw [joinSep] at h
    rcases haux ws w ch h with h2 | h2 | h2
    · exact Or.inr ⟨w, List.mem_cons_self w ws, h2⟩
    · exact Or.inl h2
    · rcases h2 with ⟨v, hv, hchv⟩
      exact Or.inr ⟨v, List.mem_cons_of_mem w hv, hchv⟩

/-- the type of a parameter emitted for one piece contains no `*`. -/
theorem paramFromPiece_type_no_star (k : Nat) (p : String) (fp : FunctionParam)
    (h : paramFromPiece k p = some fp) : ('*' : Char) ∉ fp.type.data := by
  have hword : ∀ w : String,
      w ∈ (wsWords (removeStars (stripConstQual p.data).length
              (stripConstQual p.data)).length
            (removeStars (stripConstQual p.data).length (stripConstQual p.data))).map
          String.mk →
        ('*' : Char) ∉ w.data := by
    intro w hw hch
    rcases List.mem_map.mp hw with ⟨wc, hwc, hmk⟩
    rw [← hmk] at hch
    exact star_not_mem_removeStars _ _ (mem_wsWords_sub _ _ wc '*' hwc hch)
  unfold paramFromPiece at h
  by_cases hp : p = ""
  · rw [if_pos hp] at h
    exact absurd h (by simp)
  · rw [if_neg hp] at h
    dsimp only at h
    split_ifs at h with h2 h3
    · rw [Option.some.injEq] at h
      rw [← h]
      intro hch
      rcases mem_joinSep " " _ '*' hch with hsep | ⟨w, hw, hchw⟩
      · exact absurd hsep (by decide)
      · exact hword w ((List.dropLast_sublist _).subset hw) hchw
    · rw [Option.some.injEq] at h
      rw [← h]
      rcases List.length_eq_one.mp h3 with ⟨w, hw⟩
      intro hch
      rw [hw] at hch
      exact hword w (by rw [hw]; exact List.mem_cons_self w []) (by simpa using hch)

/-- every parameter of the piece loop has a star-free type. -/
theorem processPieces_type_no_star : ∀ (ps : List String) (k : Nat)
    (fp : FunctionParam), fp ∈ processPieces ps k → ('*' : Char) ∉ fp.type.data := by
  intro ps
  induction ps with
  | nil => intro k fp h; simp [processPieces] at h
  | cons p ps2 ih =>
    intro k fp h
    rw [processPieces] at h
    cases hfp : paramFromPiece k p with
    | none =>
      rw [hfp] at h
      exact ih k fp h
    | some fq =>
      rw [hfp] at h
      rcases List.mem_cons.mp h with h2 | h2
      · rw [h2]
        exact paramFromPiece_type_no_star k p fq hfp
      · exact ih (k + 1) fp h2

/-- C6 (counterexample): a comma nested inside a parenthesized group splits
the parameter anyway — a function-pointer parameter yields two mangled
parameters instead of one. -/
theorem parseParams_not_paren_aware :
    parseParams "double (*fn)(int a, int b)" =
      [{ type := "double ( fn)(int", name := "a", isPointer := true },
       { type := "int", name := "b)", isPointer := false }] := rfl

/-- C6 (amended): `parseParams` splits on every comma (parentheses are not
respected), trims each piece, and turns each piece into at most one
parameter: empty pieces are dropped; the piece's `const` qualifier and `*`s
are removed, `*`-presence sets `isPointer` and `*` never appears in the
emitted type; with at least two whitespace-words the last word is the name
and the rest joined by single spaces are the type; with exactly one word
that word is the type and the name is `arg` followed by the number of
parameters already emitted. -/
theorem parseParams_splits_every_comma (s : String)
    (h : ¬ (s = "void" ∨ s = "")) :
    parseParams s = processPieces ((jsSplit s ',').map jsTrim) 0 ∧
    ∀ fp ∈ parseParams s, ('*' : Char) ∉ fp.type.data := by
  have hmain : parseParams s = processPieces ((jsSplit s ',').map jsTrim) 0 := by
    unfold parseParams
    rw [if_neg h, foldl_paramStep_eq]
    simp
  refine ⟨hmain, ?_⟩
  intro fp hfp
  rw [hmain] at hfp
  exact processPieces_type_no_star _ _ fp hfp

/-- Witness for C6: the loop characterization at a concrete two-parameter
list. -/
theorem parseParams_splits_every_comma_witness :
    parseParams "double tjd, char xx" =
      processPieces ((jsSplit "double tjd, char xx" ',').map jsTrim) 0 ∧
    ∀ fp ∈ parseParams "double tjd, char xx", ('*' : Char) ∉ fp.type.data :=
  parseParams_splits_every_comma "double tjd, char xx" (by decide)

/-! ### Claims C4 and C3: the resolver

Shared machinery about `skippedSet`, `visit` and `topologicalSort`. -/

/-- `contains` on a string list is membership. -/
theorem strContains_iff (l : List String) (n : String) :
    l.contains n = true ↔ n ∈ l := by
  simp [List.contains]

/-- a hit of the name map names an entry of the list with that name. -/
theorem byNameFind_some : ∀ (cs : List Constant) (n : String) (c : Constant),
    byNameFind cs n = some c → c ∈ cs ∧ c.name = n := by
  have haux : ∀ (l : List Constant) (acc : Option Constant) (n : String) (c : Constant),
      l.foldl (fun a x => if x.name = n then some x else a) acc = some c →
        acc = some c ∨ (c ∈ l ∧ c.name = n) := by
    intro l
    induction l with
    | nil => intro acc n c h; exact Or.inl h
    | cons x l2 ih =>
      intro acc n c h
      rw [List.foldl_cons] at h
      rcases ih _ n c h with h2 | h2
      · by_cases hx : x.name = n
        · rw [if_pos hx] at h2
          rw [Option.some.injEq] at h2
          exact Or.inr ⟨h2 ▸ List.mem_cons_self x l2, h2 ▸ hx⟩
        · rw [if_neg hx] at h2
          exact Or.inl h2
      · exact Or.inr ⟨List.mem_cons_of_mem x h2.1, h2.2⟩
  intro cs n c h
  rcases haux cs none n c h with h2 | h2
  · exact absurd h2 (by simp)
  · exact h2

/-- the name map misses exactly the names outside the list. -/
theorem byNameFind_none : ∀ (cs : List Constant) (n : String),
    byNameFind cs n = none ↔ n ∉ namesOf cs := by
  have haux : ∀ (l : List Constant) (acc : Option Constant) (n : String),
      l.foldl (fun a x => if x.name = n then some x else a) acc = none ↔
        acc = none ∧ ∀ x ∈ l, x.name ≠ n := by
    intro l
    induction l with
    | nil => intro acc n; simp
    | cons x l2 ih =>
      intro acc n
      rw [List.foldl_cons, ih]
      by_cases hx : x.name = n
      · rw [if_pos hx]
        simp [hx]
      · rw [if_neg hx]
        constructor
        · rintro ⟨h1, h2⟩
          refine ⟨h1, ?_⟩
          intro y hy
          rcases List.mem_cons.mp hy with h3 | h3
          · rw [h3]; exact hx
          · exact h2 y h3
        · rintro ⟨h1, h2⟩
          exact ⟨h1, fun y hy => h2 y (List.mem_cons_of_mem x hy)⟩
  intro cs n
  unfold byNameFind
  rw [haux]
  unfold namesOf
  simp

/-- one-step dependency over the entries: some entry named `a` lists `b`. -/
inductive Reaches (cs : List Constant) : String → String → Prop
  | step {a b : String} (c : Constant) (hc : c ∈ cs) (hn : c.name = a)
      (hd : b ∈ c.dependencies) : Reaches cs a b
  | trans {a b d : String} : Reaches cs a b → Reaches cs b d → Reaches cs a d

/-- `addName` keeps old members. -/
theorem addName_mem_of (sk : List String) (n m : String) (h : m ∈ sk) :
    m ∈ addName sk n := by
  unfold addName
  split_ifs
  · exact h
  · exact List.mem_cons_of_mem n h

/-- `addName` contains the added name. -/
theorem addName_mem_self (sk : List String) (n : String) : n ∈ addName sk n := by
  unfold addName
  split_ifs with h
  · exact (strContains_iff sk n).mp h
  · exact List.mem_cons_self n sk

/-- members survive the `skipInit` fold. -/
theorem skipInit_fold_mem_of (cs : List Constant) :
    ∀ (l : List Constant) (acc : List String) (m : String), m ∈ acc →
      m ∈ l.foldl
        (fun sk c =>
          if c.dependencies.any (fun d => !(byNameContains cs d)) then addName sk c.name
          else sk) acc := by
  intro l
  induction l with
  | nil => intro acc m h; exact h
  | cons c l2 ih =>
    intro acc m h
    rw [List.foldl_cons]
    refine ih _ m ?_
    split_ifs
    · exact addName_mem_of acc c.name m h
    · exact h

/-- a constant with an absent dependency lands in `skipInit`. -/
theorem skipInit_mem (cs : List Constant) (x : Constant) (hx : x ∈ cs)
    (hcond : x.dependencies.any (fun d => !(byNameContains cs d)) = true) :
    x.name ∈ skipInit cs := by
  unfold skipInit
  have haux : ∀ (l : List Constant) (acc : List String), x ∈ l →
      x.name ∈ l.foldl
        (fun sk c =>
          if c.dependencies.any (fun d => !(byNameContains cs d)) then addName sk c.name
          else sk) acc := by
    intro l
    induction l with
    | nil => intro acc h; simp at h
    | cons c l2 ih =>
      intro acc h
      rw [List.foldl_cons]
      rcases List.mem_cons.mp h with h2 | h2
      · refine skipInit_fold_mem_of cs l2 _ x.name ?_
        rw [← h2, if_pos hcond]
        exact addName_mem_self acc x.name
      · exact ih _ h2
  exact haux cs [] hx

/-- members survive one `skipPass`. -/
theorem skipPass_mem_of (cs : List Constant) :
    ∀ (l : List Constant) (acc : List String) (m : String), m ∈ acc →
      m ∈ l.foldl
        (fun sk c =>
          if sk.contains c.name then sk
          else if c.dependencies.any (fun d => sk.contains d) then c.name :: sk
          else sk) acc := by
  intro l
  induction l with
  | nil => intro acc m h; exact h
  | cons c l2 ih =>
    intro acc m h
    rw [List.foldl_cons]
    refine ih _ m ?_
    split_ifs
    · exact h
    · exact List.mem_cons_of_mem c.name h
    · exact h

/-- members survive the whole skip loop. -/
theorem skipLoop_mem_of (cs : List Constant) :
    ∀ (fuel : Nat) (sk : List String) (m : String), m ∈ sk →
      m ∈ skipLoop cs fuel sk := by
  intro fuel
  induction fuel with
  | zero => intro sk m h; exact h
  | succ f ih =>
    intro sk m h
    rw [skipLoop]
    split_ifs
    · exact h
    · exact ih _ m (skipPass_mem_of cs cs sk m h)

/-- members of `skipInit` are in the final skipped set. -/
theorem skippedSet_mem_of_init (cs : List Constant) (m : String)
    (h : m ∈ skipInit cs) : m ∈ skippedSet cs :=
  skipLoop_mem_of cs (cs.length + 1) (skipInit cs) m h

/-- the fold of one pass never shortens the accumulator. -/
theorem skipPass_fold_length_ge (cs : List Constant) :
    ∀ (l : List Constant) (acc : List String),
      acc.length ≤ (l.foldl
        (fun sk c =>
          if sk.contains c.name then sk
          else if c.dependencies.any (fun d => sk.contains d) then c.name :: sk
          else sk) acc).length := by
  intro l
  induction l with
  | nil => intro acc; exact le_rfl
  | cons c l2 ih =>
    intro acc
    rw [List.foldl_cons]
    refine le_trans ?_ (ih _)
    split_ifs
    · exact le_rfl
    · exact Nat.le_succ _
    · exact le_rfl

/-- a pass that does not grow did nothing: the accumulator is returned
unchanged and every entry is already settled against it. -/
theorem skipPass_fold_stable (cs : List Constant) :
    ∀ (l : List Constant) (acc : List String),
      (l.foldl
        (fun sk c =>
          if sk.contains c.name then sk
          else if c.dependencies.any (fun d => sk.contains d) then c.name :: sk
          else sk) acc).length = acc.length →
      (l.foldl
        (fun sk c =>
          if sk.contains c.name then sk
          else if c.dependencies.any (fun d => sk.contains d) then c.name :: sk
          else sk) acc) = acc ∧
      ∀ c ∈ l, acc.contains c.name = true ∨
        c.dependencies.any (fun d => acc.contains d) = false := by
  intro l
  induction l with
  | nil => intro acc _; exact ⟨rfl, by simp⟩
  | cons c l2 ih =>
    intro acc hlen
    rw [List.foldl_cons] at hlen ⊢
    have hstep : (if acc.contains c.name then acc
        else if c.dependencies.any (fun d => acc.contains d) then c.name :: acc
        else acc) = acc := by
      split_ifs with h1 h2
      · rfl
      · exfalso
        have hge := skipPass_fold_length_ge cs l2 (c.name :: acc)
        rw [List.length_cons] at hge
        have : (l2.foldl
            (fun sk c =>
              if sk.contains c.name then sk
              else if c.dependencies.any (fun d => sk.contains d) then c.name :: sk
              else sk) (c.name :: acc)).length = acc.length := by
          rw [← hlen]
          congr 1
          rw [if_neg h1, if_pos h2]
        omega
      · rfl
    rw [hstep] at hlen ⊢
    rcases ih acc hlen with ⟨hfold, hall⟩
    refine ⟨hfold, ?_⟩
    intro e he
    rcases List.mem_cons.mp he with h2 | h2
    · subst h2
      by_cases h1 : acc.contains e.name = true
      · exact Or.inl h1
      · by_cases h3 : e.dependencies.any (fun d => acc.contains d) = true
        · exfalso
          rw [if_neg h1, if_pos h3] at hstep
          have := congrArg List.length hstep
          simp at this
        · exact Or.inr (by simpa using h3)
    · exact hall e h2

/-- one pass keeps the accumulator duplicate-free. -/
theorem skipPass_fold_nodup (cs : List Constant) :
    ∀ (l : List Constant) (acc : List String), acc.Nodup →
      (l.foldl
        (fun sk c =>
          if sk.contains c.name then sk
          else if c.dependencies.any (fun d => sk.contains d) then c.name :: sk
          else sk) acc).Nodup := by
  intro l
  induction l with
  | nil => intro acc h; exact h
  | cons c l2 ih =>
    intro acc h
    rw [List.foldl_cons]
    refine ih _ ?_
    split_ifs with h1 h2
    · exact h
    · exact List.Nodup.cons (fun hmem => h1 ((strContains_iff acc c.name).mpr hmem)) h
    · exact h

/-- one pass only adds entry names. -/
theorem skipPass_fold_subset (cs : List Constant) :
    ∀ (l : List Constant) (acc : List String), (∀ m ∈ acc, m ∈ namesOf cs) →
      (∀ e ∈ l, e ∈ cs) →
      ∀ m ∈ (l.foldl
        (fun sk c =>
          if sk.contains c.name then sk
          else if c.dependencies.any (fun d => sk.contains d) then c.name :: sk
          else sk) acc), m ∈ namesOf cs := by
  intro l
  induction l with
  | nil => intro acc h _ m hm; exact h m hm
  | cons c l2 ih =>
    intro acc h hl m hm
    rw [List.foldl_cons] at hm
    refine ih _ ?_ (fun e he => hl e (List.mem_cons_of_mem c he)) m hm
    intro n hn
    have hc : c ∈ cs := hl c (List.mem_cons_self c l2)
    split_ifs at hn
    · exact h n hn
    · rcases List.mem_cons.mp hn with h2 | h2
      · rw [h2]
        exact List.mem_map_of_mem (fun e => e.name) hc
      · exact h n h2
    · exact h n hn

/-- a duplicate-free list of names drawn from `ns` is no longer than `ns`. -/
theorem nodup_subset_length : ∀ (sk ns : List String), sk.Nodup →
    (∀ m ∈ sk, m ∈ ns) → sk.length ≤ ns.length := by
  intro sk
  induction sk with
  | nil => intro ns _ _; simp
  | cons a sk2 ih =>
    intro ns hnd hsub
    have ha : a ∈ ns := hsub a (List.mem_cons_self a sk2)
    have hnd2 := List.nodup_cons.mp hnd
    have hsub2 : ∀ m ∈ sk2, m ∈ ns.erase a := by
      intro m hm
      have hne : m ≠ a := fun he => hnd2.1 (he ▸ hm)
      exact (List.mem_erase_of_ne hne).mpr (hsub m (List.mem_cons_of_mem a hm))
    have hrec := ih (ns.erase a) hnd2.2 hsub2
    have hlen := List.length_erase_of_mem ha
    have hpos : 0 < ns.length := List.length_pos_of_mem ha
    rw [List.length_cons]
    omega

/-- with enough fuel the skip loop reaches a fixed point of `skipPass`. -/
theorem skipLoop_fix (cs : List Constant) :
    ∀ (fuel : Nat) (sk : List String), sk.Nodup → (∀ m ∈ sk, m ∈ namesOf cs) →
      (namesOf cs).length < sk.length + fuel →
      skipPass cs (skipLoop cs fuel sk) = skipLoop cs fuel sk := by
  intro fuel
  induction fuel with
  | zero =>
    intro sk h1 h2 hbound
    exact absurd hbound (by have := nodup_subset_length sk (namesOf cs) h1 h2; omega)
  | succ f ih =>
    intro sk h1 h2 hbound
    rw [skipLoop]
    split_ifs with hlen
    · exact (skipPass_fold_stable cs cs sk hlen).1
    · refine ih (skipPass cs sk) (skipPass_fold_nodup cs cs sk h1)
        (skipPass_fold_subset cs cs sk h2 (fun e he => he)) ?_
      have hge : sk.length ≤ (skipPass cs sk).length :=
        skipPass_fold_length_ge cs cs sk
      have hne : (skipPass cs sk).length ≠ sk.length := hlen
      omega

/-- `addName` keeps the accumulator duplicate-free. -/
theorem addName_nodup (sk : List String) (n : String) (h : sk.Nodup) :
    (addName sk n).Nodup := by
  unfold addName
  split_ifs with h1
  · exact h
  · exact List.Nodup.cons (fun hmem => h1 ((strContains_iff sk n).mpr hmem)) h

/-- the first pass is duplicate-free. -/
theorem skipInit_nodup (cs : List Constant) : (skipInit cs).Nodup := by
  unfold skipInit
  have haux : ∀ (l : List Constant) (acc : List String), acc.Nodup →
      (l.foldl
        (fun sk c =>
          if c.dependencies.any (fun d => !(byNameContains cs d)) then addName sk c.name
          else sk) acc).Nodup := by
    intro l
    induction l with
    | nil => intro acc h; exact h
    | cons c l2 ih =>
      intro acc h
      rw [List.foldl_cons]
      refine ih _ ?_
      split_ifs
      · exact addName_nodup acc c.name h
      · exact h
  exact haux cs [] List.nodup_nil

/-- the first pass only contains entry names. -/
theorem skipInit_subset (cs : List Constant) :
    ∀ m ∈ skipInit cs, m ∈ namesOf cs := by
  unfold skipInit
  have haux : ∀ (l : List Constant) (acc : List String), (∀ m ∈ acc, m ∈ namesOf cs) →
      (∀ e ∈ l, e ∈ cs) →
      ∀ m ∈ (l.foldl
        (fun sk c =>
          if c.dependencies.any (fun d => !(byNameContains cs d)) then addName sk c.name
          else sk) acc), m ∈ namesOf cs := by
    intro l
    induction l with
    | nil => intro acc h _ m hm; exact h m hm
    | cons c l2 ih =>
      intro acc h hl m hm
      rw [List.foldl_cons] at hm
      refine ih _ ?_ (fun e he => hl e (List.mem_cons_of_mem c he)) m hm
      intro n hn
      have hc : c ∈ cs := hl c (List.mem_cons_self c l2)
      split_ifs at hn
      · unfold addName at hn
        split_ifs at hn
        · exact h n hn
        · rcases List.mem_cons.mp hn with h2 | h2
          · rw [h2]
            exact List.mem_map_of_mem (fun e => e.name) hc
          · exact h n h2
      · exact h n hn
  exact haux cs [] (by simp) (fun e he => he)

/-- the skipped set is a fixed point of one pass. -/
theorem skippedSet_fix (cs : List Constant) :
    skipPass cs (skippedSet cs) = skippedSet cs := by
  unfold skippedSet
  refine skipLoop_fix cs (cs.length + 1) (skipInit cs) (skipInit_nodup cs)
    (skipInit_subset cs) ?_
  have h2 : (namesOf cs).length = cs.length := List.length_map _ _
  omega

/-- the skipped set is closed under reverse dependency: an entry with a
skipped dependency is itself skipped. -/
theorem skippedSet_closed (cs : List Constant) (c : Constant) (hc : c ∈ cs)
    (d : String) (hd : d ∈ c.dependencies) (hds : d ∈ skippedSet cs) :
    c.name ∈ skippedSet cs := by
  have hfix := skippedSet_fix cs
  unfold skipPass at hfix
  have hstable := skipPass_fold_stable cs cs (skippedSet cs)
    (congrArg List.length hfix)
  rcases hstable.2 c hc with h | h
  · exact (strContains_iff _ _).mp h
  · exfalso
    have : c.dependencies.any (fun x => (skippedSet cs).contains x) = true := by
      rw [List.any_eq_true]
      exact ⟨d, hd, (strContains_iff _ _).mpr hds⟩
    rw [h] at this
    exact Bool.false_ne_true this

/-- skipping propagates up every transitive dependency chain. -/
theorem skippedSet_reaches (cs : List Constant) :
    ∀ (a b : String), Reaches cs a b → b ∈ skippedSet cs → a ∈ skippedSet cs := by
  intro a b hr
  induction hr with
  | step c hc hn hd => intro hb; exact hn ▸ skippedSet_closed cs c hc _ hd hb
  | trans h1 h2 ih1 ih2 => intro hb; exact ih1 (ih2 hb)

/-- the traversal never adds a skipped name to the sorted output. -/
theorem visit_sorted_not_skipped (cs : List Constant) (sk : List String) :
    ∀ (fuel : Nat) (name : String) (st : TState),
      (∀ e ∈ st.sorted, e.name ∉ sk) →
      ∀ e ∈ (visit cs sk fuel name st).sorted, e.name ∉ sk := by
  intro fuel
  induction fuel with
  | zero => intro name st h e he; exact h e he
  | succ f ih =>
    intro name st h e he
    rw [visit] at he
    split_ifs at he with h1 h2 h3
    · exact h e he
    · exact h e he
    · exact h e he
    · cases hfind : byNameFind cs name with
      | none => rw [hfind] at he; exact h e he
      | some c =>
        rw [hfind] at he
        dsimp only at he
        have hfold : ∀ (deps : List String) (s : TState),
            (∀ e2 ∈ s.sorted, e2.name ∉ sk) →
            ∀ e2 ∈ (deps.foldl
              (fun s dep => if byNameContains cs dep then visit cs sk f dep s else s)
              s).sorted, e2.name ∉ sk := by
          intro deps
          induction deps with
          | nil => intro s hs e2 he2; exact hs e2 he2
          | cons dp deps2 ihd =>
            intro s hs e2 he2
            rw [List.foldl_cons] at he2
            refine ihd _ ?_ e2 he2
            split_ifs
            · intro e3 he3
              exact ih dp s hs e3 he3
            · exact hs
        rcases List.mem_append.mp he with h4 | h4
        · exact hfold c.dependencies
            { sorted := st.sorted, visited := st.visited,
              inProgress := name :: st.inProgress }
            (fun e2 he2 => h e2 he2) e h4
        · rw [List.mem_singleton] at h4
          subst h4
          rw [(byNameFind_some cs name e hfind).2]
          intro hmem
          exact h3 ((strContains_iff sk name).mpr hmem)

/-- nothing skipped reaches the sorted output. -/
theorem topologicalSort_not_skipped (cs : List Constant) :
    ∀ e ∈ topologicalSort cs, e.name ∉ skippedSet cs := by
  unfold topologicalSort
  dsimp only
  have haux : ∀ (l : List Constant) (st : TState),
      (∀ e ∈ st.sorted, e.name ∉ skippedSet cs) →
      ∀ e ∈ (l.foldl
        (fun st c =>
          if (skippedSet cs).contains c.name then st
          else visit cs (skippedSet cs) (cs.length + 1) c.name st) st).sorted,
        e.name ∉ skippedSet cs := by
    intro l
    induction l with
    | nil => intro st h e he; exact h e he
    | cons c l2 ihl =>
      intro st h e he
      rw [List.foldl_cons] at he
      refine ihl _ ?_ e he
      split_ifs
      · exact h
      · intro e2 he2
        exact visit_sorted_not_skipped cs (skippedSet cs) (cs.length + 1) c.name st h e2 he2
  intro e he
  exact haux cs ⟨[], [], []⟩ (by simp) e he

/-- C4: a constant with a dependency absent from the input set is excluded
from the topological-sort output, together with every constant that
transitively depends on it. -/
theorem missing_dependency_excluded (cs : List Constant) (x : Constant)
    (hx : x ∈ cs) (d : String) (hd : d ∈ x.dependencies) (habs : d ∉ namesOf cs)
    (c : Constant) (hreach : c.name = x.name ∨ Reaches cs c.name x.name) :
    c ∉ topologicalSort cs := by
  intro hmem
  have hxs : x.name ∈ skippedSet cs := by
    refine skippedSet_mem_of_init cs x.name (skipInit_mem cs x hx ?_)
    rw [List.any_eq_true]
    refine ⟨d, hd, ?_⟩
    unfold byNameContains
    simp [(byNameFind_none cs d).mpr habs]
  have hcs : c.name ∈ skippedSet cs := by
    rcases hreach with h | h
    · rw [h]; exact hxs
    · exact skippedSet_reaches cs _ _ h hxs
  exact topologicalSort_not_skipped cs c hmem hcs

/-- Witness for C4: on a two-constant input where the first references an
absent name, the second (which depends on the first) is excluded. -/
theorem missing_dependency_excluded_witness :
    (⟨"SE_C", "SE_B", none, ["SE_B"]⟩ : Constant) ∉
      topologicalSort
        [⟨"SE_B", "SE_MISSING", none, ["SE_MISSING"]⟩,
         ⟨"SE_C", "SE_B", none, ["SE_B"]⟩] :=
  missing_dependency_excluded _ ⟨"SE_B", "SE_MISSING", none, ["SE_MISSING"]⟩
    (by decide) "SE_MISSING" (by decide) (by decide) _
    (Or.inr (Reaches.step ⟨"SE_C", "SE_B", none, ["SE_B"]⟩ (by decide) rfl (by decide)))

end SweGen
